import Mathlib

/-!
Verification development for the traffic2openapi inference and emission
pipeline.  Go source files are shallowly embedded: Go maps become
association lists (insertion-ordered), `any` JSON values become the `Val`
inductive, float64 JSON numbers become rationals (the Go integrality test
`v == float64(int64(v))` becomes `q.den = 1`), and the regular expressions
of the source become explicit character-list matchers with the same
semantics.
-/

namespace T2O

/-- Association-list lookup, modelling a Go map read `m[k]`. -/
def assocFind {κ α : Type} [DecidableEq κ] (l : List (κ × α)) (k : κ) : Option α :=
  match l with
  | [] => none
  | (k2, v) :: rest => if k2 = k then some v else assocFind rest k

/-- Association-list upsert, modelling a Go map write `m[k] = v`
(insertion order kept for later iteration). -/
def assocSet {κ α : Type} [DecidableEq κ] (l : List (κ × α)) (k : κ) (v : α) :
    List (κ × α) :=
  match l with
  | [] => [(k, v)]
  | (k2, v2) :: rest =>
      if k2 = k then (k2, v) :: rest else (k2, v2) :: assocSet rest k v

/-- Go map read of a `map[string]bool` with its zero-value default. -/
def boolLookup (l : List (String × Bool)) (k : String) : Bool :=
  (assocFind l k).getD false

/-- Go map read of a `map[string]string` with its zero-value default. -/
def strLookup (l : List (String × String)) (k : String) : String :=
  (assocFind l k).getD ""

/-- Go map read of a `map[string]int` with its zero-value default. -/
def natLookup (l : List (String × Nat)) (k : String) : Nat :=
  (assocFind l k).getD 0

/-- JSON values as produced by Go's `encoding/json` into `any`:
nil, bool, float64, string, []any, map[string]any. -/
inductive Val : Type where
  | vnull : Val
  | vbool (b : Bool) : Val
  | vnum (q : ℚ) : Val
  | vstr (s : String) : Val
  | varr (elems : List Val) : Val
  | vobj (fields : List (String × Val)) : Val

/- Type constants (pkg/inference/helpers.go). -/

def TypeString : String := "string"
def TypeInteger : String := "integer"
def TypeNumber : String := "number"
def TypeBoolean : String := "boolean"
def TypeArray : String := "array"
def TypeObject : String := "object"

/- Format constants (pkg/inference/helpers.go). -/

def FormatUUID : String := "uuid"
def FormatEmail : String := "email"
def FormatDateTime : String := "date-time"
def FormatDate : String := "date"
def FormatTime : String := "time"
def FormatURI : String := "uri"
def FormatIPv4 : String := "ipv4"
def FormatIPv6 : String := "ipv6"

/-- Go `inferType` (helpers.go): JSON Schema type of a decoded value.  The Go
float64 case tests `v == float64(int64(v))`, i.e. integrality. -/
def inferType (v : Val) : String :=
  match v with
  | .vnull => ""
  | .vbool _ => TypeBoolean
  | .vnum q => if q.den = 1 then TypeInteger else TypeNumber
  | .vstr _ => TypeString
  | .varr _ => TypeArray
  | .vobj _ => TypeObject

/-- Go `mergeTypes` (helpers.go): a type that encompasses both types. -/
def mergeTypes (t1 t2 : String) : String :=
  if t1 = "" then t2
  else if t2 = "" then t1
  else if t1 = t2 then t1
  else if (t1 = TypeInteger ∧ t2 = TypeNumber) ∨
          (t1 = TypeNumber ∧ t2 = TypeInteger) then TypeNumber
  else TypeString

/- Character classes used by the regular expressions of the source. -/

def isDigitChar (c : Char) : Bool := decide ('0' ≤ c) && decide (c ≤ '9')

def isHexChar (c : Char) : Bool :=
  (decide ('0' ≤ c) && decide (c ≤ '9')) ||
  (decide ('a' ≤ c) && decide (c ≤ 'f')) ||
  (decide ('A' ≤ c) && decide (c ≤ 'F'))

def isAlphaChar (c : Char) : Bool :=
  (decide ('a' ≤ c) && decide (c ≤ 'z')) ||
  (decide ('A' ≤ c) && decide (c ≤ 'Z'))

def isAlnumChar (c : Char) : Bool := isAlphaChar c || isDigitChar c

/-- Consume exactly `n` digits, returning the rest of the input. -/
def pDigits : Nat → List Char → Option (List Char)
  | 0, rest => some rest
  | n + 1, c :: rest => if isDigitChar c then pDigits n rest else none
  | _ + 1, [] => none

/-- Consume one expected character. -/
def pChar (c : Char) : List Char → Option (List Char)
  | c2 :: rest => if c2 = c then some rest else none
  | [] => none

/-- Split a character list on a separator character (as `strings.Split`). -/
def splitCharList (sep : Char) (l : List Char) : List (List Char) :=
  match l with
  | [] => [[]]
  | c :: rest =>
      let parts := splitCharList sep rest
      if c = sep then [] :: parts
      else
        match parts with
        | p :: ps => (c :: p) :: ps
        | [] => [[c]]

/-- Go `strings.Split(s, sep)` for a single-character separator. -/
def splitChar (sep : Char) (s : String) : List String :=
  (splitCharList sep s.data).map String.mk

/-- Go `^[0-9a-fA-F]{8}-...{4}-...{4}-...{4}-...{12}$` (uuidPattern). -/
def matchUUID (s : String) : Bool :=
  match splitCharList '-' s.data with
  | [a, b, c, d, e] =>
      (a.length == 8) && (b.length == 4) && (c.length == 4) &&
      (d.length == 4) && (e.length == 12) &&
      (a ++ b ++ c ++ d ++ e).all isHexChar
  | _ => false

/-- Go `^[a-zA-Z0-9._%+-]+@[a-zA-Z0-9.-]+\.[a-zA-Z]{2,}$` (emailPattern). -/
def matchEmail (s : String) : Bool :=
  let isLocalChar : Char → Bool := fun c =>
    isAlnumChar c || (c == '.') || (c == '_') || (c == '%') ||
    (c == '+') || (c == '-')
  let isDomChar : Char → Bool := fun c =>
    isAlnumChar c || (c == '.') || (c == '-')
  let l := s.data
  let localPart := l.takeWhile (fun c => c ≠ '@')
  match l.drop localPart.length with
  | '@' :: domain =>
      -- the top-level label is the maximal alphabetic suffix, preceded by
      -- a dot, preceded by a non-empty run of domain characters
      let tldRev := domain.reverse.takeWhile isAlphaChar
      let beforeTld := domain.reverse.drop tldRev.length
      (!localPart.isEmpty) && localPart.all isLocalChar &&
      domain.all isDomChar && (2 ≤ tldRev.length : Bool) &&
      (match beforeTld with
       | '.' :: pre => !pre.isEmpty
       | _ => false)
  | _ => false

/-- Go `^\d{4}-\d{2}-\d{2}[T ]\d{2}:\d{2}:\d{2}` (dateTimePattern, a prefix
match since only the start is anchored). -/
def matchDateTime (s : String) : Bool :=
  (do
    let r ← pDigits 4 s.data
    let r ← pChar '-' r
    let r ← pDigits 2 r
    let r ← pChar '-' r
    let r ← pDigits 2 r
    let r ← match r with
            | c :: rest => if c = 'T' || c = ' ' then some rest else none
            | [] => none
    let r ← pDigits 2 r
    let r ← pChar ':' r
    let r ← pDigits 2 r
    let r ← pChar ':' r
    let _ ← pDigits 2 r
    some ()).isSome

/-- Go `^\d{4}-\d{2}-\d{2}$` (datePattern, fully anchored). -/
def matchDate (s : String) : Bool :=
  match splitCharList '-' s.data with
  | [a, b, c] =>
      (a.length == 4) && (b.length == 2) && (c.length == 2) &&
      (a ++ b ++ c).all isDigitChar
  | _ => false

/-- Go `^\d{2}:\d{2}:\d{2}` (timePattern, a prefix match). -/
def matchTime (s : String) : Bool :=
  (do
    let r ← pDigits 2 s.data
    let r ← pChar ':' r
    let r ← pDigits 2 r
    let r ← pChar ':' r
    let _ ← pDigits 2 r
    some ()).isSome

/-- Go `^https?://` (uriPattern, a prefix match). -/
def matchURI (s : String) : Bool :=
  "http://".data.isPrefixOf s.data || "https://".data.isPrefixOf s.data

/-- One dotted-quad octet of ipv4Pattern:
`25[0-5]|2[0-4][0-9]|[01]?[0-9][0-9]?`. -/
def matchOctet (l : List Char) : Bool :=
  match l with
  | [a] => isDigitChar a
  | [a, b] => isDigitChar a && isDigitChar b
  | [a, b, c] =>
      isDigitChar a && isDigitChar b && isDigitChar c &&
      ((a == '0') || (a == '1') || ((a == '2') && decide (b ≤ '4')) ||
       ((a == '2') && (b == '5') && decide (c ≤ '5')))
  | _ => false

/-- ipv4Pattern, fully anchored. -/
def matchIPv4 (s : String) : Bool :=
  match splitCharList '.' s.data with
  | [a, b, c, d] => matchOctet a && matchOctet b && matchOctet c && matchOctet d
  | _ => false

/-- Go `^([0-9a-fA-F]{1,4}:){7}[0-9a-fA-F]{1,4}$` (ipv6Pattern). -/
def matchIPv6 (s : String) : Bool :=
  let parts := splitCharList ':' s.data
  (parts.length == 8) &&
  parts.all (fun p =>
    (1 ≤ p.length : Bool) && (p.length ≤ 4 : Bool) && p.all isHexChar)

/-- Go `detectFormat` (helpers.go): format of a string value, first matching
pattern wins, in source order. -/
def detectFormat (s : String) : String :=
  if s = "" then ""
  else if matchUUID s then FormatUUID
  else if matchEmail s then FormatEmail
  else if matchDateTime s then FormatDateTime
  else if matchDate s then FormatDate
  else if matchTime s then FormatTime
  else if matchURI s then FormatURI
  else if matchIPv4 s then FormatIPv4
  else if matchIPv6 s then FormatIPv6
  else ""

/- `valuesEqual` (helpers.go): structural equality of decoded JSON values,
split into three mutually recursive functions (value / object fields /
array elements) exactly following the Go switch. -/
mutual

def valuesEqual (a b : Val) : Bool :=
  match a, b with
  | .vnull, .vnull => true
  | .vnull, _ => false
  | _, .vnull => false
  | .vobj f1, .vobj f2 =>
      (f1.length == f2.length) && valuesEqualObj f1 f2
  | .vobj _, _ => false
  | .varr l1, .varr l2 =>
      (l1.length == l2.length) && valuesEqualList l1 l2
  | .varr _, _ => false
  | .vnum q1, .vnum q2 => q1 == q2
  | .vnum _, _ => false
  | .vstr s1, .vstr s2 => s1 == s2
  | .vstr _, _ => false
  | .vbool b1, .vbool b2 => b1 == b2
  | .vbool _, _ => false

def valuesEqualObj (f1 f2 : List (String × Val)) : Bool :=
  match f1 with
  | [] => true
  | (k, v1) :: rest =>
      (match assocFind f2 k with
       | some v2 => valuesEqual v1 v2
       | none => false) && valuesEqualObj rest f2

def valuesEqualList (l1 l2 : List Val) : Bool :=
  match l1, l2 with
  | [], _ => true
  | _ :: _, [] => false
  | x :: xs, y :: ys => valuesEqual x y && valuesEqualList xs ys

end

/-- Go `ParamData` (pkg/inference/types.go): parameter value aggregator. -/
structure ParamData where
  name : String
  examples : List Val
  type : String
  format : String
  required : Bool
  seenCount : Nat

/-- Go `NewParamData` (types.go): type starts at "string", required at true. -/
def newParamData (name : String) : ParamData :=
  { name := name, examples := [], type := "string", format := "",
    required := true, seenCount := 0 }

/-- Go `ParamData.AddValue` (types.go): when the current type is the default
"string" (or empty), the freshly inferred type replaces it outright;
otherwise the two are merged. -/
def ParamData.addValue (p : ParamData) (v : Val) : ParamData :=
  let p : ParamData := { p with seenCount := p.seenCount + 1 }
  let inferredType := inferType v
  let p : ParamData :=
    if p.type = "" ∨ p.type = "string" then { p with type := inferredType }
    else { p with type := mergeTypes p.type inferredType }
  let p : ParamData :=
    match v with
    | .vstr s => if detectFormat s ≠ "" then { p with format := detectFormat s } else p
    | _ => p
  if p.examples.length < 5 then
    if p.examples.any (fun ex => valuesEqual ex v) then p
    else { p with examples := p.examples ++ [v] }
  else p

/-- Go `SchemaStore` (types.go): flat path-keyed observation accumulator.
Go maps are embedded as insertion-ordered association lists; the mutex is
dropped (all embedded operations are sequential). -/
structure SchemaStore where
  examples : List (String × List Val)
  types : List (String × String)
  optional : List (String × Bool)
  nullable : List (String × Bool)
  formats : List (String × String)
  seenCount : List (String × Nat)
  totalCount : Nat
  maxExamples : Nat

/-- Go `NewSchemaStore` (types.go). -/
def newSchemaStore : SchemaStore :=
  { examples := [], types := [], optional := [], nullable := [],
    formats := [], seenCount := [], totalCount := 0, maxExamples := 5 }

/-- Go `SchemaStore.AddObservation` (types.go). -/
def SchemaStore.addObservation (s : SchemaStore) : SchemaStore :=
  { s with totalCount := s.totalCount + 1 }

/-- Go `SchemaStore.hasExample` (types.go). -/
def SchemaStore.hasExample (s : SchemaStore) (path : String) (v : Val) : Bool :=
  ((assocFind s.examples path).getD []).any (fun ex => valuesEqual ex v)

/-- Go `SchemaStore.AddValue` (types.go): bump the seen counter, record null
as nullability, otherwise merge the inferred type, detect a string format
and add a unique example (up to `maxExamples`). -/
def SchemaStore.addValue (s : SchemaStore) (path : String) (v : Val) : SchemaStore :=
  let s := { s with seenCount := assocSet s.seenCount path (natLookup s.seenCount path + 1) }
  match v with
  | .vnull => { s with nullable := assocSet s.nullable path true }
  | _ =>
    let inferredType := inferType v
    let s :=
      match assocFind s.types path with
      | some existing => { s with types := assocSet s.types path (mergeTypes existing inferredType) }
      | none => { s with types := assocSet s.types path inferredType }
    let s :=
      match v with
      | .vstr str =>
          if detectFormat str ≠ "" then
            { s with formats := assocSet s.formats path (detectFormat str) }
          else s
      | _ => s
    if ((assocFind s.examples path).getD []).length < s.maxExamples then
      if s.hasExample path v then s
      else { s with examples := assocSet s.examples path (((assocFind s.examples path).getD []) ++ [v]) }
    else s

/-- Go `SchemaStore.FinalizeOptional` (types.go): every path seen in strictly
fewer than `totalCount` observations is marked optional. -/
def SchemaStore.finalizeOptional (s : SchemaStore) : SchemaStore :=
  let newOptional := s.seenCount.foldl
    (fun acc pc => if pc.2 < s.totalCount then assocSet acc pc.1 true else acc)
    s.optional
  { s with optional := newOptional }

/-- Go `SchemaStore.GetPaths` (types.go): all example paths, then the paths
that only ever held nulls. -/
def SchemaStore.getPaths (s : SchemaStore) : List String :=
  s.examples.map Prod.fst ++
  (s.nullable.map Prod.fst).filter (fun p => (assocFind s.examples p).isNone)

/-- Go `joinPath` (helpers.go). -/
def joinPath (basePath key : String) : String :=
  if basePath = "" then key else basePath ++ "." ++ key

/-- Go `parsePathSegments` (helpers.go): `strings.Split(path, ".")`. -/
def parsePathSegments (path : String) : List String := splitChar '.' path

/-- Go `isArrayPath` (helpers.go): `strings.HasSuffix(segment, "[]")`. -/
def isArrayPath (segment : String) : Bool :=
  "[]".data.isSuffixOf segment.data

/-- Go `stripArraySuffix` (helpers.go): `strings.TrimSuffix(segment, "[]")`. -/
def stripArraySuffix (segment : String) : String :=
  if isArrayPath segment then String.mk (segment.data.take (segment.data.length - 2))
  else segment

/-- Go `isObjectArray` checks the first element only (schema.go). -/
def isObjectVal (v : Val) : Bool :=
  match v with
  | .vobj _ => true
  | _ => false

/- `ProcessBody` / `processValue` / `processObject` / `processArray`
(schema.go).  Go iterates objects in map order; the embedding iterates in
field order — only example insertion order can differ, never the tracked
paths, counts, or merged types. -/
mutual

def processValue (store : SchemaStore) (path : String) (v : Val) : SchemaStore :=
  match v with
  | .vnull => store.addValue path .vnull
  | .vobj fields => processObject store path fields
  | .varr elems => processArray store path elems
  | _ => store.addValue path v

def processObject (store : SchemaStore) (basePath : String)
    (fields : List (String × Val)) : SchemaStore :=
  match fields with
  | [] => store
  | (key, val) :: rest =>
      processObject (processValue store (joinPath basePath key) val) basePath rest

def processArray (store : SchemaStore) (basePath : String) (arr : List Val) :
    SchemaStore :=
  let arrayPath := basePath ++ "[]"
  match arr with
  | [] => store.addValue arrayPath .vnull
  | first :: rest =>
      if isObjectVal first then processArrayObjects store arrayPath (first :: rest)
      else (first :: rest).foldl (fun st item => st.addValue arrayPath item) store

def processArrayObjects (store : SchemaStore) (arrayPath : String)
    (arr : List Val) : SchemaStore :=
  match arr with
  | [] => store
  | .vobj fields :: rest =>
      processArrayObjects (processObject store arrayPath fields) arrayPath rest
  | _ :: rest => processArrayObjects store arrayPath rest

end

/-- Go `ProcessBody` (schema.go): skip nil bodies, else count one observation
and walk the value from the empty root path. -/
def processBody (store : SchemaStore) (body : Option Val) : SchemaStore :=
  match body with
  | none => store
  | some v => processValue store.addObservation "" v

/-- Go `SchemaNode` (schema.go): node of the inferred schema tree. -/
inductive SchemaNode : Type where
  | mk (type : String) (format : String)
       (properties : List (String × SchemaNode))
       (items : Option SchemaNode)
       (required : List String)
       (nullable : Bool)
       (examples : List Val)
       (enum : List String) : SchemaNode

def SchemaNode.type : SchemaNode → String
  | .mk t _ _ _ _ _ _ _ => t

def SchemaNode.format : SchemaNode → String
  | .mk _ f _ _ _ _ _ _ => f

def SchemaNode.properties : SchemaNode → List (String × SchemaNode)
  | .mk _ _ p _ _ _ _ _ => p

def SchemaNode.items : SchemaNode → Option SchemaNode
  | .mk _ _ _ i _ _ _ _ => i

def SchemaNode.required : SchemaNode → List String
  | .mk _ _ _ _ r _ _ _ => r

def SchemaNode.nullable : SchemaNode → Bool
  | .mk _ _ _ _ _ n _ _ => n

def SchemaNode.examples : SchemaNode → List Val
  | .mk _ _ _ _ _ _ e _ => e

def SchemaNode.enum : SchemaNode → List String
  | .mk _ _ _ _ _ _ _ e => e

/-- Lexicographic comparison of character lists by code point; UTF-8
byte order (Go string comparison) coincides with code-point order. -/
def charListLe : List Char → List Char → Bool
  | [], _ => true
  | _ :: _, [] => false
  | a :: as, b :: bs =>
      if a.toNat < b.toNat then true
      else if b.toNat < a.toNat then false
      else charListLe as bs

/-- Go string `<=`. -/
def strLe (a b : String) : Bool := charListLe a.data b.data

/-- Insert into a `strLe`-sorted list of strings. -/
def insertSorted (x : String) : List String → List String
  | [] => [x]
  | y :: ys => if strLe x y then x :: y :: ys else y :: insertSorted x ys

/-- Go `sort.Strings` (ascending): any sorting algorithm produces the same
list on a totally ordered type, so insertion sort is used. -/
def sortStrings : List String → List String
  | [] => []
  | x :: xs => insertSorted x (sortStrings xs)

/-- Go `treeNode` (schema.go): internal trie for building schemas. -/
inductive TreeNode : Type where
  | mk (children : List (String × TreeNode)) (fullPath : String)
       (isLeaf : Bool) : TreeNode

def TreeNode.children : TreeNode → List (String × TreeNode)
  | .mk cs _ _ => cs

def TreeNode.fullPath : TreeNode → String
  | .mk _ fp _ => fp

def TreeNode.isLeaf : TreeNode → Bool
  | .mk _ _ l => l

/-- The fresh trie root of `BuildSchemaTree`. -/
def emptyTreeNode : TreeNode := TreeNode.mk [] "" false

/-- Go `insertPath` (schema.go): walk the segments, creating children on
demand; the node at the last segment is marked as a leaf carrying the
original full path. -/
def insertPath (node : TreeNode) (parts : List String) (fullPath : String) :
    TreeNode :=
  match parts with
  | [] => node
  | part :: rest =>
      let child := (assocFind node.children part).getD (TreeNode.mk [] "" false)
      let newChild :=
        if rest.isEmpty then TreeNode.mk child.children fullPath true
        else insertPath child rest fullPath
      TreeNode.mk (assocSet node.children part newChild) node.fullPath node.isLeaf

/-- Go `createLeafSchema` (schema.go). -/
def createLeafSchema (path : String) (store : SchemaStore) : SchemaNode :=
  let t0 := (assocFind store.types path).getD ""
  let t := if t0 = "" then TypeString else t0
  SchemaNode.mk t (strLookup store.formats path) [] none []
    (boolLookup store.nullable path) ((assocFind store.examples path).getD []) []

/- `convertToSchemaNode` (schema.go).  The source's
`isRoot && allArrays && len(children) == 1` test is matched as a
single-child list whose key has the `[]` suffix (with one child,
`allArrays` is exactly that test). -/
mutual

def convertToSchemaNode (store : SchemaStore) (node : TreeNode) (isRoot : Bool) :
    SchemaNode :=
  match node with
  | .mk children fullPath leaf =>
      if leaf && children.isEmpty then createLeafSchema fullPath store
      else
        match children with
        | [(key, child)] =>
            if isRoot && isArrayPath key then
              SchemaNode.mk TypeArray "" []
                (some (convertToSchemaNode store child false)) [] false [] []
            else
              let pr := convertChildren store [(key, child)]
              SchemaNode.mk TypeObject "" pr.1 none (sortStrings pr.2) false [] []
        | cs2 =>
            let pr := convertChildren store cs2
            SchemaNode.mk TypeObject "" pr.1 none (sortStrings pr.2) false [] []

def convertChildProp (store : SchemaStore) (key : String) (child : TreeNode) :
    String × SchemaNode :=
  if isArrayPath key then
    (stripArraySuffix key,
     SchemaNode.mk TypeArray "" []
       (some (convertToSchemaNode store child false)) [] false [] [])
  else if child.isLeaf && child.children.isEmpty then
    (key, createLeafSchema child.fullPath store)
  else (key, convertToSchemaNode store child false)

def convertChildren (store : SchemaStore) (cs : List (String × TreeNode)) :
    List (String × SchemaNode) × List String :=
  match cs with
  | [] => ([], [])
  | (key, child) :: rest =>
      let pn := convertChildProp store key child
      let req :=
        if child.fullPath ≠ "" && !(boolLookup store.optional child.fullPath)
        then [pn.1] else []
      let rec2 := convertChildren store rest
      (pn :: rec2.1, req ++ rec2.2)

end

/-- Go `strings.HasSuffix`. -/
def hasSuffixStr (s suffix : String) : Bool := suffix.data.isSuffixOf s.data

/-- Go `strings.Trim(path, "/")`: strip leading and trailing slashes. -/
def trimSlashes (s : String) : String :=
  String.mk (((s.data.dropWhile (· = '/')).reverse.dropWhile (· = '/')).reverse)

/-- Go `strings.ToLower` restricted to ASCII (every key of the resource
dictionary and every path compared in the source is ASCII). -/
def asciiToLower (s : String) : String :=
  String.mk (s.data.map fun c =>
    if 'A' ≤ c ∧ c ≤ 'Z' then Char.ofNat (c.toNat + 32) else c)

/-- Join strings with a separator (`strings.Join`). -/
def joinWith (sep : String) : List String → String
  | [] => ""
  | [x] => x
  | x :: xs => x ++ sep ++ joinWith sep xs

/-- Go `SegmentType` (pkg/inference/path.go). -/
inductive SegmentType : Type where
  | literal | numericID | uuid | hash | objectID | base64ID | date | unknownID
deriving DecidableEq

/-- Go `^\d+$` (numericPattern). -/
def matchNumeric (s : String) : Bool :=
  (!s.data.isEmpty) && s.data.all isDigitChar

/-- Go `^[0-9a-fA-F]{6,12}$` (shortHashPattern). -/
def matchShortHash (s : String) : Bool :=
  s.data.all isHexChar && (6 ≤ s.data.length : Bool) && (s.data.length ≤ 12 : Bool)

/-- Go `^[0-9a-fA-F]{32,64}$` (longHashPattern). -/
def matchLongHash (s : String) : Bool :=
  s.data.all isHexChar && (32 ≤ s.data.length : Bool) && (s.data.length ≤ 64 : Bool)

/-- Go `^[0-9a-fA-F]{24}$` (objectIdPattern). -/
def matchObjectId (s : String) : Bool :=
  s.data.all isHexChar && (s.data.length == 24)

/-- Go `^[A-Za-z0-9_-]{16,}$` (base64IdPattern). -/
def matchBase64Id (s : String) : Bool :=
  s.data.all (fun c => isAlnumChar c || (c == '_') || (c == '-')) &&
  (16 ≤ s.data.length : Bool)

/-- Go `^v\d+(\.\d+)?$` (versionPattern). -/
def matchVersion (s : String) : Bool :=
  match s.data with
  | 'v' :: rest =>
      (match splitCharList '.' rest with
       | [d] => (!d.isEmpty) && d.all isDigitChar
       | [d, e] => (!d.isEmpty) && d.all isDigitChar &&
                   (!e.isEmpty) && e.all isDigitChar
       | _ => false)
  | _ => false

/-- Go `looksLikeIDSegment` (path.go): more than 50% digits and length over 4.
The Go float test `float64(numCount)/float64(len) > 0.5` is exactly
`2*numCount > len` for these lengths. -/
def looksLikeIDSegment (segment : String) : Bool :=
  let numCount := (segment.data.filter isDigitChar).length
  (4 < segment.data.length : Bool) && (segment.data.length < 2 * numCount : Bool)

/-- Go `classifySegment` (path.go), patterns tried in source order. -/
def classifySegment (segment : String) : SegmentType :=
  if matchVersion segment then .literal
  else if matchUUID segment then .uuid
  else if matchObjectId segment then .objectID
  else if matchNumeric segment then
    (if 1 ≤ segment.data.length then .numericID else .literal)
  else if matchLongHash segment then .hash
  else if matchShortHash segment then
    (if 8 ≤ segment.data.length then .hash else .literal)
  else if matchDate segment then .date
  else if matchBase64Id segment then .base64ID
  else if looksLikeIDSegment segment then .unknownID
  else .literal

/-- The resource dictionary of `NewPathInferrer` (path.go), in source
order (a Go map: order never observed, only key lookups). -/
def resourceNames : List (String × String) :=
  [("users", "userId"), ("user", "userId"),
   ("members", "memberId"), ("member", "memberId"),
   ("customers", "customerId"), ("customer", "customerId"),
   ("employees", "employeeId"), ("employee", "employeeId"),
   ("authors", "authorId"), ("author", "authorId"),
   ("owners", "ownerId"), ("owner", "ownerId"),
   ("admins", "adminId"), ("admin", "adminId"),
   ("posts", "postId"), ("post", "postId"),
   ("articles", "articleId"), ("article", "articleId"),
   ("comments", "commentId"), ("comment", "commentId"),
   ("reviews", "reviewId"), ("review", "reviewId"),
   ("replies", "replyId"), ("reply", "replyId"),
   ("messages", "messageId"), ("message", "messageId"),
   ("threads", "threadId"), ("thread", "threadId"),
   ("channels", "channelId"), ("channel", "channelId"),
   ("feeds", "feedId"), ("feed", "feedId"),
   ("pages", "pageId"), ("page", "pageId"),
   ("blogs", "blogId"), ("blog", "blogId"),
   ("orders", "orderId"), ("order", "orderId"),
   ("products", "productId"), ("product", "productId"),
   ("items", "itemId"), ("item", "itemId"),
   ("carts", "cartId"), ("cart", "cartId"),
   ("invoices", "invoiceId"), ("invoice", "invoiceId"),
   ("payments", "paymentId"), ("payment", "paymentId"),
   ("transactions", "transactionId"), ("transaction", "transactionId"),
   ("subscriptions", "subscriptionId"), ("subscription", "subscriptionId"),
   ("plans", "planId"), ("plan", "planId"),
   ("coupons", "couponId"), ("coupon", "couponId"),
   ("discounts", "discountId"), ("discount", "discountId"),
   ("accounts", "accountId"), ("account", "accountId"),
   ("organizations", "organizationId"), ("organization", "organizationId"),
   ("orgs", "orgId"), ("org", "orgId"),
   ("companies", "companyId"), ("company", "companyId"),
   ("workspaces", "workspaceId"), ("workspace", "workspaceId"),
   ("tenants", "tenantId"), ("tenant", "tenantId"),
   ("projects", "projectId"), ("project", "projectId"),
   ("tasks", "taskId"), ("task", "taskId"),
   ("issues", "issueId"), ("issue", "issueId"),
   ("tickets", "ticketId"), ("ticket", "ticketId"),
   ("milestones", "milestoneId"), ("milestone", "milestoneId"),
   ("sprints", "sprintId"), ("sprint", "sprintId"),
   ("releases", "releaseId"), ("release", "releaseId"),
   ("versions", "versionId"), ("version", "versionId"),
   ("builds", "buildId"), ("build", "buildId"),
   ("deployments", "deploymentId"), ("deployment", "deploymentId"),
   ("jobs", "jobId"), ("job", "jobId"),
   ("runs", "runId"), ("run", "runId"),
   ("pipelines", "pipelineId"), ("pipeline", "pipelineId"),
   ("teams", "teamId"), ("team", "teamId"),
   ("groups", "groupId"), ("group", "groupId"),
   ("roles", "roleId"), ("role", "roleId"),
   ("files", "fileId"), ("file", "fileId"),
   ("documents", "documentId"), ("document", "documentId"),
   ("attachments", "attachmentId"), ("attachment", "attachmentId"),
   ("images", "imageId"), ("image", "imageId"),
   ("assets", "assetId"), ("asset", "assetId"),
   ("media", "mediaId"),
   ("folders", "folderId"), ("folder", "folderId"),
   ("directories", "directoryId"), ("directory", "directoryId"),
   ("notifications", "notificationId"), ("notification", "notificationId"),
   ("events", "eventId"), ("event", "eventId"),
   ("webhooks", "webhookId"), ("webhook", "webhookId"),
   ("alerts", "alertId"), ("alert", "alertId"),
   ("logs", "logId"), ("log", "logId"),
   ("sessions", "sessionId"), ("session", "sessionId"),
   ("tokens", "tokenId"), ("token", "tokenId"),
   ("keys", "keyId"), ("key", "keyId"),
   ("secrets", "secretId"), ("secret", "secretId"),
   ("categories", "categoryId"), ("category", "categoryId"),
   ("tags", "tagId"), ("tag", "tagId"),
   ("labels", "labelId"), ("label", "labelId"),
   ("types", "typeId"), ("type", "typeId"),
   ("statuses", "statusId"), ("status", "statusId"),
   ("locations", "locationId"), ("location", "locationId"),
   ("addresses", "addressId"), ("address", "addressId"),
   ("regions", "regionId"), ("region", "regionId"),
   ("countries", "countryId"), ("country", "countryId"),
   ("cities", "cityId"), ("city", "cityId"),
   ("stores", "storeId"), ("store", "storeId"),
   ("warehouses", "warehouseId"), ("warehouse", "warehouseId"),
   ("apis", "apiId"), ("api", "apiId"),
   ("endpoints", "endpointId"), ("endpoint", "endpointId"),
   ("integrations", "integrationId"), ("integration", "integrationId"),
   ("connections", "connectionId"), ("connection", "connectionId"),
   ("apps", "appId"), ("app", "appId"),
   ("applications", "applicationId"), ("application", "applicationId"),
   ("services", "serviceId"), ("service", "serviceId"),
   ("resources", "resourceId"), ("resource", "resourceId"),
   ("repositories", "repositoryId"), ("repository", "repositoryId"),
   ("repos", "repoId"), ("repo", "repoId"),
   ("branches", "branchId"), ("branch", "branchId"),
   ("commits", "commitId"), ("commit", "commitId"),
   ("pulls", "pullId"), ("pull", "pullId"),
   ("merges", "mergeId"), ("merge", "mergeId"),
   ("databases", "databaseId"), ("database", "databaseId"),
   ("tables", "tableId"), ("table", "tableId"),
   ("collections", "collectionId"), ("collection", "collectionId"),
   ("records", "recordId"), ("record", "recordId"),
   ("entries", "entryId"), ("entry", "entryId"),
   ("rows", "rowId"), ("row", "rowId"),
   ("metrics", "metricId"), ("metric", "metricId"),
   ("reports", "reportId"), ("report", "reportId"),
   ("dashboards", "dashboardId"), ("dashboard", "dashboardId"),
   ("charts", "chartId"), ("chart", "chartId"),
   ("widgets", "widgetId"), ("widget", "widgetId"),
   ("settings", "settingId"), ("setting", "settingId"),
   ("preferences", "preferenceId"), ("preference", "preferenceId"),
   ("configurations", "configurationId"), ("configuration", "configurationId"),
   ("configs", "configId"), ("config", "configId"),
   ("options", "optionId"), ("option", "optionId"),
   ("features", "featureId"), ("feature", "featureId"),
   ("flags", "flagId"), ("flag", "flagId")]

/-- Go `singularize` (path.go). -/
def singularize (word : String) : String :=
  if word.data.length < 2 then word
  else if hasSuffixStr word "ies" then
    String.mk (word.data.take (word.data.length - 3)) ++ "y"
  else if hasSuffixStr word "es" then
    if hasSuffixStr word "sses" || hasSuffixStr word "shes" ||
       hasSuffixStr word "ches" || hasSuffixStr word "xes" then
      String.mk (word.data.take (word.data.length - 2))
    else String.mk (word.data.take (word.data.length - 1))
  else if hasSuffixStr word "s" && !(hasSuffixStr word "ss") then
    String.mk (word.data.take (word.data.length - 1))
  else word

/-- The `counts[name] > 0` suffixing step shared by every branch of
`inferParamName` (path.go): `name + strconv.Itoa(counts[name]+1)`. -/
def suffixIfCounted (name : String) (counts : List (String × Nat)) : String :=
  if 0 < natLookup counts name then name ++ Nat.repr (natLookup counts name + 1)
  else name

/-- Go `inferParamName` (path.go): name from the preceding resource segment
if possible, else from the segment class. -/
def inferParamName (segments : List String) (idx : Nat) (segType : SegmentType)
    (counts : List (String × Nat)) : String :=
  if 0 < idx then
    let prevSegment := asciiToLower (segments.getD (idx - 1) "")
    match assocFind resourceNames prevSegment with
    | some paramName => suffixIfCounted paramName counts
    | none => suffixIfCounted (singularize prevSegment ++ "Id") counts
  else
    match segType with
    | .uuid => suffixIfCounted "uuid" counts
    | .date => suffixIfCounted "date" counts
    | _ => suffixIfCounted "id" counts

/-- Go `PathInferrer.InferTemplate` (path.go): strip the query string, split
on `/`, classify each segment, and replace dynamic segments by named
placeholders; `paramCounts` tracks returned names (incremented after each
placement) and `params` records the concrete value per name. -/
def inferTemplate (path : String) : String × List (String × String) :=
  let path := String.mk (path.data.takeWhile (fun c => c ≠ '?'))
  let segments := splitChar '/' (trimSlashes path)
  if segments.length = 0 ∨ (segments.length = 1 ∧ segments.getD 0 "" = "") then
    ("/", [])
  else
    let final :=
      segments.enum.foldl
        (fun (st : List String × List (String × Nat) × List (String × String)) isg =>
          let (result, counts, params) := st
          let (i, segment) := isg
          if segment = "" then (result ++ [""], counts, params)
          else
            let segType := classifySegment segment
            if segType = .literal then (result ++ [segment], counts, params)
            else
              let paramName := inferParamName segments i segType counts
              let counts2 := assocSet counts paramName (natLookup counts paramName + 1)
              let params2 := assocSet params paramName segment
              (result ++ ["\x7b" ++ paramName ++ "\x7d"], counts2, params2))
        ([], [], [])
    ("/" ++ joinWith "/" final.1, final.2.2)

/-- Go `BuildSchemaTree` (schema.go). -/
def buildSchemaTree (store : SchemaStore) : SchemaNode :=
  if store.examples.isEmpty && store.nullable.isEmpty then
    SchemaNode.mk TypeObject "" [] none [] false [] []
  else
    let root :=
      store.getPaths.foldl
        (fun r path =>
          if path = "" then r else insertPath r (parsePathSegments path) path)
        emptyTreeNode
    convertToSchemaNode store root true

/-- Go `formatExample` (schema.go): string key used for example
deduplication.  The float64 case truncates `val*1000000` toward zero,
converts the integer to the rune with that code point (invalid code
points become U+FFFD), removes the first `.`, then trims trailing `0`
runes and trailing `.` runes. -/
def formatExample (v : Val) : String :=
  match v with
  | .vstr s => "s:" ++ s
  | .vnum q =>
      let i0 : Int := (q * 1000000).num / ((q * 1000000).den : Int)
      -- int → rune (int32) truncation
      let i : Int := (i0 + 2 ^ 31) % 2 ^ 32 - 2 ^ 31
      let r : Char :=
        if 0 ≤ i ∧ i.toNat < 0xd800 ∨ 0xdfff < i ∧ i.toNat < 0x110000 then
          Char.ofNat i.toNat
        else Char.ofNat 0xfffd
      let afterReplace := if r = '.' then [] else [r]
      let afterZeros := (afterReplace.reverse.dropWhile (· = '0')).reverse
      let afterDots := (afterZeros.reverse.dropWhile (· = '.')).reverse
      "n:" ++ String.mk afterDots
  | .vbool b => if b then "b:true" else "b:false"
  | .vnull => "null"
  | _ => "?"

/-- Go `mergeExamples` (schema.go): concatenate, deduplicate by
`formatExample` key, stop at `mx` entries. -/
def mergeExamples (a b : List Val) (mx : Nat) : List Val :=
  ((a ++ b).foldl
    (fun (st : List String × List Val) ex =>
      if mx ≤ st.2.length then st
      else
        let key := formatExample ex
        if st.1.contains key then st else (key :: st.1, st.2 ++ [ex]))
    ([], [])).2

/-- First-occurrence deduplication with an explicit seen set. -/
def dedupSeen (seen : List String) : List String → List String
  | [] => []
  | x :: xs =>
      if seen.contains x then dedupSeen seen xs
      else x :: dedupSeen (x :: seen) xs

/-- First-occurrence deduplication of the property-name union built by
`MergeSchemas` (a Go map whose iteration order is unspecified; the
embedding fixes first-occurrence order). -/
def dedupKeepFirst (l : List String) : List String := dedupSeen [] l

theorem sizeOf_assocFind_le {α : Type} [SizeOf α]
    (l : List (String × α)) (k : String) : sizeOf (assocFind l k) ≤ sizeOf l := by
  induction l with
  | nil => simp [assocFind]
  | cons h t ih =>
      obtain ⟨k2, v⟩ := h
      simp only [assocFind]
      split
      · simp; omega
      · simp; omega

theorem sizeOf_schemaNode_properties (a : SchemaNode) :
    sizeOf a.properties < sizeOf a := by
  cases a; simp [SchemaNode.properties]; omega

theorem sizeOf_schemaNode_items (a : SchemaNode) :
    sizeOf a.items < sizeOf a := by
  cases a; simp [SchemaNode.items]; omega

/- Go `MergeSchemas` (schema.go): nil handling in `mergeSchemas`, the
non-nil combination in `mergeCore`.  In the source `result.Type` is
assigned up to three times (scalar merge, then the array branch, then the
object branch); the embedding computes the final value directly. -/
mutual

def mergeSchemas (a b : Option SchemaNode) : Option SchemaNode :=
  match a, b with
  | none, b => b
  | some a, none => some a
  | some a, some b => some (mergeCore a b)
termination_by sizeOf a + sizeOf b

def mergeCore (a b : SchemaNode) : SchemaNode :=
  let isArr := a.type = TypeArray ∨ b.type = TypeArray
  let isObj := a.type = TypeObject ∨ b.type = TypeObject
  let rType :=
    if isObj then TypeObject
    else if isArr then TypeArray
    else mergeTypes a.type b.type
  let rFormat :=
    if a.format ≠ "" then a.format
    else if b.format ≠ "" then b.format
    else ""
  let rExamples := mergeExamples a.examples b.examples 5
  let rItems := if isArr then mergeSchemas a.items b.items else none
  let rProps :=
    if isObj then
      (dedupKeepFirst (a.properties.map Prod.fst ++ b.properties.map Prod.fst)).filterMap
        (fun n =>
          (mergeSchemas (assocFind a.properties n) (assocFind b.properties n)).map
            (fun v => (n, v)))
    else []
  let rRequired :=
    if isObj then sortStrings (b.required.filter (fun r => a.required.contains r))
    else []
  let rEnum :=
    if !a.enum.isEmpty && !b.enum.isEmpty then
      sortStrings (b.enum.filter (fun e => a.enum.contains e))
    else []
  SchemaNode.mk rType rFormat rProps rItems rRequired (a.nullable || b.nullable)
    rExamples rEnum
termination_by sizeOf a + sizeOf b
decreasing_by
  · have h1 := sizeOf_schemaNode_items a
    have h2 := sizeOf_schemaNode_items b
    simp_wf; omega
  · have h1 := sizeOf_assocFind_le a.properties n
    have h2 := sizeOf_assocFind_le b.properties n
    have h3 := sizeOf_schemaNode_properties a
    have h4 := sizeOf_schemaNode_properties b
    simp_wf; omega

end

/- ---------- OpenAPI generator (pkg/openapi/generator.go) ---------- -/

/-- Version constants of pkg/openapi/generator.go; `Version` is a string
type, and the CLI additionally passes the plain string "3.2.0". -/
def Version30 : String := "3.0.3"

def Version31 : String := "3.1.0"

/-- Go `GeneratorOptions` (generator.go). -/
structure GeneratorOptions where
  version : String
  title : String
  description : String
  apiVersion : String
  servers : List String

/-- Go `Server` (pkg/openapi/types.go): url plus optional description. -/
structure Server where
  url : String
  sdescription : String
deriving DecidableEq

/-- Servers assembly step of `Generator.Generate` (generator.go:59-73):
the explicit option list wins; otherwise the product of observed hosts
(outer loop) and schemes (inner loop), in the order they sit in the
`InferenceResult` (which `GetResult` filled by iterating Go map sets —
no sorting anywhere). -/
def generateServers (options : GeneratorOptions) (hosts schemes : List String) :
    List Server :=
  if 0 < options.servers.length then
    options.servers.map (fun serverURL => ⟨serverURL, ""⟩)
  else if 0 < hosts.length ∧ 0 < schemes.length then
    hosts.flatMap (fun host => schemes.map (fun scheme => ⟨scheme ++ "://" ++ host, ""⟩))
  else []

/-- Value held by the `any`-typed `Schema.Type` field of
pkg/openapi/types.go: a single type name or a list (nullable encoding). -/
inductive GoTypeVal : Type where
  | strT (s : String)
  | arrT (l : List String)
deriving DecidableEq

/-- Fields of the OpenAPI `Schema` (pkg/openapi/types.go) that
`convertSchemaNode` can set; every other field stays at its zero value. -/
inductive OASchema : Type where
  | mk (type : GoTypeVal) (format : String) (enum : List String)
       (examples : List Val) (items : Option OASchema)
       (properties : List (String × OASchema)) (required : List String) : OASchema

def OASchema.type : OASchema → GoTypeVal
  | .mk t _ _ _ _ _ _ => t

def OASchema.format : OASchema → String
  | .mk _ f _ _ _ _ _ => f

def OASchema.enum : OASchema → List String
  | .mk _ _ e _ _ _ _ => e

def OASchema.examples : OASchema → List Val
  | .mk _ _ _ e _ _ _ => e

def OASchema.items : OASchema → Option OASchema
  | .mk _ _ _ _ i _ _ => i

def OASchema.properties : OASchema → List (String × OASchema)
  | .mk _ _ _ _ _ p _ => p

def OASchema.required : OASchema → List String
  | .mk _ _ _ _ _ _ r => r

/- Go `Generator.convertSchemaNode` (generator.go:281-337) on a non-nil
node (`convertSchemaCore`) and on a possibly-nil pointer
(`convertSchemaNode`). -/
mutual

def convertSchemaCore (g : GeneratorOptions) (node : SchemaNode) : OASchema :=
  match node with
  | .mk t format props items req nullable examples enum =>
      let rType :=
        if nullable ∧ g.version = Version31 then GoTypeVal.arrT [t, "null"]
        else GoTypeVal.strT t
      let rExamples :=
        if 0 < examples.length ∧ g.version = Version31 then examples else []
      let rItems :=
        if t = TypeArray then
          match items with
          | some i => some (convertSchemaCore g i)
          | none => none
        else none
      let rProps :=
        if t = TypeObject then convertOAProps g props else []
      let rRequired :=
        if t = TypeObject ∧ 0 < props.length ∧ 0 < req.length then req else []
      OASchema.mk rType format enum rExamples rItems rProps rRequired

def convertOAProps (g : GeneratorOptions) (props : List (String × SchemaNode)) :
    List (String × OASchema) :=
  match props with
  | [] => []
  | (name, prop) :: rest => (name, convertSchemaCore g prop) :: convertOAProps g rest

end

/-- Go `Generator.convertSchemaNode` nil guard: a nil node becomes
`Schema{Type: "object"}`. -/
def convertSchemaNode (g : GeneratorOptions) (node : Option SchemaNode) : OASchema :=
  match node with
  | none => OASchema.mk (.strT "object") "" [] [] none [] []
  | some n => convertSchemaCore g n

/- ---------- IR reader auto-detection (pkg/ir/reader.go) ---------- -/

/-- Go `unicode.IsSpace`: the Unicode White_Space property (note that
U+FEFF, the byte-order mark, is NOT White_Space). -/
def goIsSpace (c : Char) : Bool :=
  c.toNat ∈ ([0x9, 0xa, 0xb, 0xc, 0xd, 0x20, 0x85, 0xa0, 0x1680,
    0x2000, 0x2001, 0x2002, 0x2003, 0x2004, 0x2005, 0x2006, 0x2007,
    0x2008, 0x2009, 0x200a, 0x2028, 0x2029, 0x202f, 0x205f, 0x3000] : List Nat)

/-- Go `strings.TrimSpace`: strip leading and trailing White_Space runes. -/
def goTrimSpace (s : String) : String :=
  String.mk (((s.data.dropWhile goIsSpace).reverse.dropWhile goIsSpace).reverse)

/-- Substring occurrence at any position. -/
def listContainsSub (l sub : List Char) : Bool :=
  match l with
  | [] => sub.isEmpty
  | _ :: rest => sub.isPrefixOf l || listContainsSub rest sub

/-- Go `strings.Contains`. -/
def containsStr (s sub : String) : Bool := listContainsSub s.data sub.data

/-- Go `readAutoDetect` (reader.go:94-128), parameterised by the three
downstream decoders it dispatches to (`ReadBatch`, `ReadNDJSON`, and the
bare-array `json.Unmarshal`), which are separate source functions.  The
dispatch looks at the first character of the space-trimmed data and, for
an object, searches `"version"` within the first 100 characters. -/
def readAutoDetect {A : Type}
    (readBatchF readNDJSONF readArrayF : String → Except String A)
    (data : String) : Except String A :=
  let trimmed := goTrimSpace data
  if trimmed.data.isEmpty then .error "empty input"
  else
    match trimmed.data with
    | c :: _ =>
        if c = '{' then
          if containsStr (String.mk (trimmed.data.take (min 100 trimmed.data.length)))
              "\"version\"" then
            readBatchF data
          else readNDJSONF data
        else if c = '[' then readArrayF data
        else .error "unrecognized format: expected JSON object or array"
    | [] => .error "empty input"

/- ---------- Writers (pkg/ir/async_writer.go, channel writer) ---------- -/

/-- Error values surfaced by the writer embeddings; `channelClosed` is
`ErrChannelClosed` ("channel writer is closed"). -/
inductive WriterErr : Type where
  | channelClosed
deriving DecidableEq

/-- Go `ChannelWriter`: the channel is modelled as the ordered list of
records successfully sent; blocking behaviour is not modelled. -/
structure ChannelWriter (R : Type) where
  closed : Bool
  sent : List R

/-- Go `NewChannelWriter`. -/
def newChannelWriter {R : Type} : ChannelWriter R := ⟨false, []⟩

/-- Go `ChannelWriter.Write`: fails with `ErrChannelClosed` when closed,
otherwise sends on the channel. -/
def ChannelWriter.write {R : Type} (w : ChannelWriter R) (r : R) :
    Except WriterErr (ChannelWriter R) :=
  if w.closed then .error .channelClosed
  else .ok { w with sent := w.sent ++ [r] }

/-- Go `ChannelWriter.Close`: idempotent, marks closed, returns nil. -/
def ChannelWriter.close {R : Type} (w : ChannelWriter R) : ChannelWriter R :=
  if w.closed then w else { w with closed := true }

/-- Go `AsyncNDJSONWriter`: the buffered channel is modelled as the
ordered list of queued records; the background drain goroutine is not
modelled (it only affects timing, not the `Write` return value). -/
structure AsyncWriter (R : Type) where
  closed : Bool
  queued : List R

/-- Go `AsyncNDJSONWriter.Write` (async_writer.go:120-130): under the
mutex, a closed writer returns nil — the source comment reads
"Silently ignore writes after close" — otherwise the record is queued
and nil is returned. -/
def AsyncWriter.write {R : Type} (w : AsyncWriter R) (r : R) :
    Except WriterErr (AsyncWriter R) :=
  if w.closed then .ok w
  else .ok { w with queued := w.queued ++ [r] }

/-- Go `AsyncNDJSONWriter.Close`: idempotent transition to closed. -/
def AsyncWriter.close {R : Type} (w : AsyncWriter R) : AsyncWriter R :=
  if w.closed then w else { w with closed := true }

/- ---------- Endpoint clusterer (EndpointClusterer source file) ---------- -/

/-- Go `strings.ToUpper` restricted to ASCII (HTTP methods). -/
def asciiToUpper (s : String) : String :=
  String.mk (s.data.map fun c =>
    if 'a' ≤ c ∧ c ≤ 'z' then Char.ofNat (c.toNat - 32) else c)

/-- Go `EndpointKey` (path.go): `strings.ToUpper(method) + " " + template`. -/
def endpointKey (method pathTemplate : String) : String :=
  asciiToUpper method ++ " " ++ pathTemplate

/-- Go `BodyData` (types.go). -/
structure BodyData where
  contentType : String
  schema : SchemaStore

/-- Go `NewBodyData` (types.go). -/
def newBodyData (contentType : String) : BodyData :=
  { contentType := contentType, schema := newSchemaStore }

/-- Go `ResponseData` (types.go). -/
structure ResponseData where
  statusCode : Int
  contentType : String
  headers : List (String × ParamData)
  body : SchemaStore

/-- Go `NewResponseData` (types.go). -/
def newResponseData (statusCode : Int) : ResponseData :=
  { statusCode := statusCode, contentType := "", headers := [],
    body := newSchemaStore }

/-- Go `EndpointData` (types.go). -/
structure EndpointData where
  method : String
  pathTemplate : String
  pathParams : List (String × ParamData)
  queryParams : List (String × ParamData)
  headerParams : List (String × ParamData)
  requestBody : Option BodyData
  responses : List (Int × ResponseData)
  requestCount : Nat

/-- Go `NewEndpointData` (types.go). -/
def newEndpointData (method pathTemplate : String) : EndpointData :=
  { method := method, pathTemplate := pathTemplate, pathParams := [],
    queryParams := [], headerParams := [], requestBody := none,
    responses := [], requestCount := 0 }

/-- Header ignore list `excludedHeaders` (clusterer source), in source
order. -/
def excludedHeaders : List String :=
  ["content-length", "content-type", "date", "server", "connection",
   "keep-alive", "transfer-encoding", "accept", "accept-encoding",
   "accept-language", "user-agent", "host", "cache-control", "pragma",
   "expires", "x-request-id", "x-correlation-id", "x-trace-id",
   "x-forwarded-for", "x-forwarded-proto", "x-forwarded-host",
   "x-real-ip", "cf-ray", "cf-connecting-ip", "cf-ipcountry",
   "cf-visitor", "cf-request-id", "x-amzn-requestid", "x-amzn-trace-id",
   "x-cache", "x-cache-hits", "x-served-by", "x-timer", "vary", "etag",
   "last-modified", "if-none-match", "if-modified-since",
   "access-control-allow-origin", "access-control-allow-methods",
   "access-control-allow-headers", "access-control-allow-credentials",
   "access-control-max-age", "access-control-expose-headers"]

/-- Go `isExcludedHeader` (clusterer source). -/
def isExcludedHeader (name : String) : Bool :=
  excludedHeaders.contains (asciiToLower name)

/-- Argument bundle of `EndpointClusterer.AddRecord`, field for field. -/
structure RecordIn where
  method : String
  path : String
  pathTemplate : String
  pathParams : List (String × String)
  query : List (String × Val)
  headers : List (String × String)
  requestBody : Option Val
  requestContentType : String
  status : Int
  responseBody : Option Val
  responseContentType : String
  responseHeaders : List (String × String)
  host : String
  scheme : String

/-- Go `EndpointClusterer` state.  The three auxiliary detectors
(security, pagination, rate limit) live in separate aggregates that never
touch the endpoint data and are not embedded. -/
structure Clusterer where
  endpoints : List (String × EndpointData)
  hosts : List String
  schemes : List String

/-- Go `NewEndpointClusterer` (endpoint state only). -/
def newClusterer : Clusterer := { endpoints := [], hosts := [], schemes := [] }

/-- Path-parameter section of `AddRecord` (created with
`Required = true`, every value added). -/
def processPathParams (ep : EndpointData) (params : List (String × String)) :
    EndpointData :=
  params.foldl
    (fun (ep : EndpointData) nv =>
      let param :=
        match assocFind ep.pathParams nv.1 with
        | some p => p
        | none => { newParamData nv.1 with required := true }
      { ep with pathParams := assocSet ep.pathParams nv.1 (param.addValue (.vstr nv.2)) })
    ep

/-- Query-parameter section of `AddRecord` (created with
`Required = false`). -/
def processQueryParams (ep : EndpointData) : List (String × Val) → EndpointData
  | [] => ep
  | (name, value) :: rest =>
      let param :=
        match assocFind ep.queryParams name with
        | some p => p
        | none => { newParamData name with required := false }
      processQueryParams
        { ep with queryParams := assocSet ep.queryParams name (param.addValue value) }
        rest

/-- Query optionality update loop of `AddRecord`: any known query key
missing from this request has its `Required` lowered to false. -/
def updateQueryOptionality (ep : EndpointData) (query : List (String × Val)) :
    EndpointData :=
  { ep with queryParams :=
      ep.queryParams.map (fun np =>
        if (assocFind query np.1).isNone then (np.1, { np.2 with required := false })
        else np) }

/-- Header-parameter section of `AddRecord` (ignore list applied, created
with `Required = false`). -/
def processHeaderParams (ep : EndpointData) (headers : List (String × String)) :
    EndpointData :=
  headers.foldl
    (fun (ep : EndpointData) nv =>
      if isExcludedHeader nv.1 then ep
      else
        let param :=
          match assocFind ep.headerParams nv.1 with
          | some p => p
          | none => { newParamData nv.1 with required := false }
        { ep with headerParams := assocSet ep.headerParams nv.1 (param.addValue (.vstr nv.2)) })
    ep

/-- Request-body section of `AddRecord`. -/
def processRequestBody (ep : EndpointData) (body : Option Val)
    (requestContentType : String) : EndpointData :=
  match body with
  | none => ep
  | some body =>
      let bd :=
        match ep.requestBody with
        | some bd => bd
        | none =>
            newBodyData (if requestContentType = "" then "application/json"
                         else requestContentType)
      { ep with requestBody := some { bd with schema := processBody bd.schema (some body) } }

/-- Response section of `AddRecord` (status > 0 only): content type set
on first sighting, body folded into the store, response headers
aggregated behind the ignore list. -/
def processResponse (ep : EndpointData) (status : Int) (responseBody : Option Val)
    (responseContentType : String) (responseHeaders : List (String × String)) :
    EndpointData :=
  if 0 < status then
    let resp :=
      match assocFind ep.responses status with
      | some resp => resp
      | none =>
          { newResponseData status with
              contentType :=
                if responseContentType ≠ "" then responseContentType
                else "application/json" }
    let resp :=
      match responseBody with
      | none => resp
      | some body => { resp with body := processBody resp.body (some body) }
    let resp :=
      responseHeaders.foldl
        (fun (resp : ResponseData) nv =>
          if isExcludedHeader nv.1 then resp
          else
            let param :=
              match assocFind resp.headers nv.1 with
              | some p => p
              | none => newParamData nv.1
            { resp with headers := assocSet resp.headers nv.1 (param.addValue (.vstr nv.2)) })
        resp
    { ep with responses := assocSet ep.responses status resp }
  else ep

/-- Go `EndpointClusterer.AddRecord`, composed from the section helpers
in source order: host/scheme sets, template inference, endpoint creation
and request counting, path parameters, query parameters, the query
optionality update loop, header parameters, request body, response data.
The detector calls touch separate aggregates and are not embedded. -/
def addRecord (c : Clusterer) (r : RecordIn) : Clusterer :=
  let hosts :=
    if r.host ≠ "" then
      (if c.hosts.contains r.host then c.hosts else c.hosts ++ [r.host])
    else c.hosts
  let schemes :=
    if r.scheme ≠ "" then
      (if c.schemes.contains r.scheme then c.schemes else c.schemes ++ [r.scheme])
    else c.schemes
  let tp :=
    if r.pathTemplate = "" then inferTemplate r.path
    else (r.pathTemplate, r.pathParams)
  let key := endpointKey r.method tp.1
  let ep0 : EndpointData :=
    match assocFind c.endpoints key with
    | some e => e
    | none => newEndpointData r.method tp.1
  let ep1 : EndpointData := { ep0 with requestCount := ep0.requestCount + 1 }
  let ep2 := processPathParams ep1 tp.2
  let ep3 := processQueryParams ep2 r.query
  let ep4 := updateQueryOptionality ep3 r.query
  let ep5 := processHeaderParams ep4 r.headers
  let ep6 := processRequestBody ep5 r.requestBody r.requestContentType
  let ep7 := processResponse ep6 r.status r.responseBody r.responseContentType
    r.responseHeaders
  { endpoints := assocSet c.endpoints key ep7, hosts := hosts, schemes := schemes }

/-- Go `EndpointClusterer.Finalize`: run `FinalizeOptional` on every body
store. -/
def Clusterer.finalize (c : Clusterer) : Clusterer :=
  { c with endpoints :=
      c.endpoints.map (fun ke =>
        (ke.1,
         { ke.2 with
             requestBody := ke.2.requestBody.map
               (fun bd => { bd with schema := bd.schema.finalizeOptional }),
             responses := ke.2.responses.map
               (fun sr => (sr.1, { sr.2 with body := sr.2.body.finalizeOptional })) })) }

/-- Processing a record sequence (`Engine.ProcessRecords` restricted to
the clusterer: one `AddRecord` per record, in order). -/
def processRecords (rs : List RecordIn) : Clusterer :=
  rs.foldl addRecord newClusterer

/- ====================== Claim theorems ====================== -/

/-- C3: for the concrete path /users/123/posts/456/items/789,
`InferTemplate` returns /users/\x7buserId\x7d/posts/\x7bpostId\x7d/items/\x7bitemId\x7d
with parameter mapping userId=123, postId=456, itemId=789. -/
theorem c3_users_posts_items_template :
    inferTemplate "/users/123/posts/456/items/789" =
      ("/users/{userId}/posts/{postId}/items/{itemId}",
       [("userId", "123"), ("postId", "456"), ("itemId", "789")]) := by decide

/-- C4: the claim says a third colliding segment gets suffix 3 and all
placeholders are pairwise distinct; on /users/1/users/2/users/3 the code
returns the placeholder \x7buserId2\x7d twice (the collision counter is keyed
by the already-suffixed name), and the params map keeps only the last
value for userId2. -/
theorem c4_third_collision_reuses_suffix2 :
    (inferTemplate "/users/1/users/2/users/3").1 =
      "/users/{userId}/users/{userId2}/users/{userId2}" ∧
    (inferTemplate "/users/1/users/2/users/3").2 =
      [("userId", "1"), ("userId2", "3")] := by decide

/-- Batch-format sample content used for the C6 evaluation. -/
def batchSample : String := "\x7b\"version\":\"ir.v1\",\"records\":[]\x7d"

/-- C6: a leading byte-order mark is not consumed by `readAutoDetect` —
`strings.TrimSpace` does not strip U+FEFF, so the first character is
neither an object nor an array opener and detection fails with
"unrecognized format", for every choice of downstream decoders; the
identical input without the mark dispatches to the batch decoder. -/
theorem c6_bom_rejected_by_autodetect :
    ∀ (A : Type) (readBatchF readNDJSONF readArrayF : String → Except String A),
      readAutoDetect readBatchF readNDJSONF readArrayF ("\uFEFF" ++ batchSample) =
        .error "unrecognized format: expected JSON object or array" ∧
      readAutoDetect readBatchF readNDJSONF readArrayF batchSample =
        readBatchF batchSample := by
  intro A readBatchF readNDJSONF readArrayF
  exact ⟨rfl, rfl⟩

/-- C9 counterexample: the async NDJSON writer accepts `Write` after
`Close` with a nil error — the record is silently dropped — contradicting
the claim that every writer fails a write after close. -/
theorem c9_async_write_after_close_returns_ok :
    AsyncWriter.write (AsyncWriter.close (⟨false, []⟩ : AsyncWriter Nat)) 7 =
      .ok ⟨true, []⟩ ∧
    ∀ e, AsyncWriter.write (AsyncWriter.close (⟨false, []⟩ : AsyncWriter Nat)) 7 ≠
      .error e := by
  refine ⟨rfl, fun e h => ?_⟩
  rw [show AsyncWriter.write (AsyncWriter.close (⟨false, []⟩ : AsyncWriter Nat)) 7 =
        .ok ⟨true, []⟩ from rfl] at h
  exact Except.noConfusion h

/-- C9 amended: after close, the channel writer's `Write` fails with
`ErrChannelClosed`, while the async NDJSON writer's `Write` returns nil
and leaves the writer unchanged (the record is dropped silently). -/
theorem c9_amended_write_after_close (R : Type) (w : ChannelWriter R)
    (a : AsyncWriter R) (r : R) (hw : w.closed = true) (ha : a.closed = true) :
    w.write r = .error .channelClosed ∧ a.write r = .ok a := by
  unfold ChannelWriter.write AsyncWriter.write
  rw [hw, ha]
  exact ⟨rfl, rfl⟩

theorem c9_amended_write_after_close_witness :
    ((⟨true, [5]⟩ : ChannelWriter Nat).closed = true ∧
     (⟨true, []⟩ : AsyncWriter Nat).closed = true) ∧
    ((⟨true, [5]⟩ : ChannelWriter Nat).write 7 = .error .channelClosed ∧
     (⟨true, []⟩ : AsyncWriter Nat).write 7 = .ok ⟨true, []⟩) :=
  ⟨⟨rfl, rfl⟩, c9_amended_write_after_close Nat ⟨true, [5]⟩ ⟨true, []⟩ 7 rfl rfl⟩

/-- C10: while the recorded type is the initial default "string" (or
empty), `ParamData.AddValue` replaces it with the newly inferred type
outright instead of merging; in particular a parameter first observed as
a non-numeric string and then as an integer ends with type "integer". -/
theorem c10_default_string_type_replaced :
    (∀ (p : ParamData) (v : Val), p.type = "" ∨ p.type = "string" →
        (p.addValue v).type = inferType v) ∧
    (((newParamData "q").addValue (.vstr "raw")).addValue (.vnum 42)).type =
      TypeInteger := by
  constructor
  · intro p v h
    rcases h with h | h <;> cases v <;>
      simp only [ParamData.addValue, h] <;> (repeat' split) <;> simp_all
  · decide

theorem c10_default_string_type_replaced_witness :
    ((newParamData "w").type = "" ∨ (newParamData "w").type = "string") ∧
    ((newParamData "w").addValue (.vnum 11)).type = inferType (.vnum 11) :=
  ⟨Or.inr rfl,
   c10_default_string_type_replaced.1 (newParamData "w") (.vnum 11) (Or.inr rfl)⟩

/-- C8: for a schema node with the nullable flag set, the converted
OpenAPI type is the two-element array [type, "null"] exactly when the
generator version is 3.1.0; under 3.0.3 and 3.2.0 the plain scalar type
is emitted and the nullable information is dropped. -/
theorem c8_nullable_encoding (g : GeneratorOptions) (node : SchemaNode)
    (h : node.nullable = true) :
    ((convertSchemaCore g node).type = GoTypeVal.arrT [node.type, "null"] ↔
      g.version = Version31) ∧
    (g.version = Version30 ∨ g.version = "3.2.0" →
      (convertSchemaCore g node).type = GoTypeVal.strT node.type) := by
  obtain ⟨t, f, props, items, req, nul, ex, en⟩ := node
  simp only [SchemaNode.nullable] at h
  subst h
  have e : (convertSchemaCore g (SchemaNode.mk t f props items req true ex en)).type =
      if (true : Bool) ∧ g.version = Version31 then GoTypeVal.arrT [t, "null"]
      else GoTypeVal.strT t := by
    rw [convertSchemaCore.eq_def]
    rfl
  simp only [SchemaNode.type]
  rw [e]
  by_cases hv : g.version = Version31
  · refine ⟨by simp [hv], ?_⟩
    intro hcontra
    rcases hcontra with h30 | h32
    · exact absurd (h30 ▸ hv) (by decide)
    · exact absurd (h32 ▸ hv) (by decide)
  · exact ⟨by simp [hv], fun _ => by simp [hv]⟩

theorem c8_nullable_encoding_witness :
    ((SchemaNode.mk "string" "" [] none [] true [] [] : SchemaNode).nullable = true) ∧
    ((convertSchemaCore ⟨Version31, "t", "", "1", []⟩
        (SchemaNode.mk "string" "" [] none [] true [] [])).type =
          GoTypeVal.arrT ["string", "null"] ∧
     (convertSchemaCore ⟨Version30, "t", "", "1", []⟩
        (SchemaNode.mk "string" "" [] none [] true [] [])).type =
          GoTypeVal.strT "string" ∧
     (convertSchemaCore ⟨"3.2.0", "t", "", "1", []⟩
        (SchemaNode.mk "string" "" [] none [] true [] [])).type =
          GoTypeVal.strT "string") := by
  refine ⟨rfl, ?_, ?_, ?_⟩
  · exact (c8_nullable_encoding ⟨Version31, "t", "", "1", []⟩
      (SchemaNode.mk "string" "" [] none [] true [] []) rfl).1.mpr rfl
  · exact (c8_nullable_encoding ⟨Version30, "t", "", "1", []⟩
      (SchemaNode.mk "string" "" [] none [] true [] []) rfl).2 (Or.inl rfl)
  · exact (c8_nullable_encoding ⟨"3.2.0", "t", "", "1", []⟩
      (SchemaNode.mk "string" "" [] none [] true [] []) rfl).2 (Or.inr rfl)

/-- C2 counterexample: with no explicit server list, hosts stored as
["b.example", "a.example"] and schemes ["https"], the generated servers
keep host-storage order — "https://b.example" precedes the strictly
smaller "https://a.example" — so the list is not the stable-sorted
Cartesian product the claim asserts. -/
theorem c2_servers_unsorted_counterexample :
    generateServers ⟨Version31, "t", "", "1.0.0", []⟩ ["b.example", "a.example"] ["https"] =
      [⟨"https://b.example", ""⟩, ⟨"https://a.example", ""⟩] ∧
    strLe "https://a.example" "https://b.example" = true ∧
    strLe "https://b.example" "https://a.example" = false := by decide

theorem flatMap_const_length {α β : Type} (l : List α) (f : α → List β) (L : Nat)
    (hf : ∀ a, (f a).length = L) : (l.flatMap f).length = l.length * L := by
  induction l with
  | nil => simp
  | cons a t ih => simp [hf, ih, Nat.succ_mul]; omega

theorem flatMap_const_get? {α β : Type} (l : List α) (f : α → List β) (L : Nat)
    (hf : ∀ a, (f a).length = L) (i j : Nat) (hi : i < l.length) (hj : j < L) :
    (l.flatMap f).get? (i * L + j) = (f (l.get ⟨i, hi⟩)).get? j := by
  induction l generalizing i with
  | nil => exact absurd hi (by simp)
  | cons a t ih =>
      cases i with
      | zero =>
          simp only [List.flatMap_cons, Nat.zero_mul, Nat.zero_add]
          rw [List.get?_append]
          · rfl
          · rw [hf a]; exact hj
      | succ i2 =>
          have hi2 : i2 < t.length := by simpa using hi
          have harith : (i2 + 1) * L + j = (f a).length + (i2 * L + j) := by
            rw [hf a]; ring
          simp only [List.flatMap_cons, harith]
          rw [List.get?_append_right (Nat.le_add_right _ _), Nat.add_sub_cancel_left]
          exact ih i2 hi2

/-- C2 amended: with no explicit server list and both sets non-empty, the
servers are exactly the Cartesian product of observed hosts (outer) and
schemes (inner) in the order they sit in the inference result — entry
i*|schemes|+j is schemes[j]://hosts[i] — with no sorting applied;
generation is a pure function of the result, so identical results give
identical output. -/
theorem c2_servers_product_in_stored_order (g : GeneratorOptions)
    (hosts schemes : List String) (hs : g.servers = [])
    (hh : hosts ≠ []) (hsc : schemes ≠ []) :
    (generateServers g hosts schemes).length = hosts.length * schemes.length ∧
    ∀ i j (hi : i < hosts.length) (hj : j < schemes.length),
      (generateServers g hosts schemes).get? (i * schemes.length + j) =
        some ⟨schemes.get ⟨j, hj⟩ ++ "://" ++ hosts.get ⟨i, hi⟩, ""⟩ := by
  have hgen : generateServers g hosts schemes =
      hosts.flatMap (fun host => schemes.map (fun scheme => ⟨scheme ++ "://" ++ host, ""⟩)) := by
    unfold generateServers
    rw [hs]
    simp only [List.length_nil, Nat.lt_irrefl, if_false]
    rw [if_pos ⟨List.length_pos.mpr hh, List.length_pos.mpr hsc⟩]
  rw [hgen]
  have hf : ∀ h2, ((fun host => schemes.map
      (fun scheme => (⟨scheme ++ "://" ++ host, ""⟩ : Server))) h2).length = schemes.length := by
    intro h2; simp
  refine ⟨flatMap_const_length hosts _ schemes.length hf, ?_⟩
  intro i j hi hj
  rw [flatMap_const_get? hosts _ schemes.length hf i j hi hj]
  simp only [List.get?_map]
  rw [List.get?_eq_get hj]
  rfl

theorem c2_servers_product_witness :
    ((⟨Version31, "t", "", "1", []⟩ : GeneratorOptions).servers = [] ∧
     (["h.example"] : List String) ≠ [] ∧ (["https"] : List String) ≠ []) ∧
    (generateServers ⟨Version31, "t", "", "1", []⟩ ["h.example"] ["https"]).length = 1 * 1 ∧
    (generateServers ⟨Version31, "t", "", "1", []⟩ ["h.example"] ["https"]).get? (0 * 1 + 0) =
      some ⟨"https://h.example", ""⟩ := by
  have h := c2_servers_product_in_stored_order ⟨Version31, "t", "", "1", []⟩
    ["h.example"] ["https"] rfl (by simp) (by simp)
  exact ⟨⟨rfl, by simp, by simp⟩, h.1, h.2 0 0 (by simp) (by simp)⟩

/- ---------- C5 machinery ---------- -/

theorem addValue_required (p : ParamData) (v : Val) :
    (p.addValue v).required = p.required := by
  unfold ParamData.addValue
  dsimp only []
  (repeat' split) <;> rfl

theorem mem_assocSet {κ α : Type} [DecidableEq κ] (l : List (κ × α)) (k : κ)
    (v : α) (x : κ × α) (hx : x ∈ assocSet l k v) : x = (k, v) ∨ x ∈ l := by
  induction l with
  | nil => simpa [assocSet] using hx
  | cons h t ih =>
      obtain ⟨k2, v2⟩ := h
      simp only [assocSet] at hx
      split at hx
      · rcases List.mem_cons.mp hx with h1 | h1
        · left; rw [h1]; next he => rw [he]
        · right; exact List.mem_cons_of_mem _ h1
      · rcases List.mem_cons.mp hx with h1 | h1
        · right; rw [h1]; exact List.mem_cons_self _ _
        · rcases ih h1 with h2 | h2
          · left; exact h2
          · right; exact List.mem_cons_of_mem _ h2

theorem assocFind_mem {κ α : Type} [DecidableEq κ] (l : List (κ × α)) (k : κ)
    (v : α) (h : assocFind l k = some v) : (k, v) ∈ l := by
  induction l with
  | nil => simp [assocFind] at h
  | cons hd t ih =>
      obtain ⟨k2, v2⟩ := hd
      simp only [assocFind] at h
      split at h
      · next he => simp only [Option.some.injEq] at h; rw [← he, h]; exact List.mem_cons_self _ _
      · exact List.mem_cons_of_mem _ (ih h)

/-- Every query parameter of an endpoint is marked optional. -/
def qpAllOptional (ep : EndpointData) : Prop :=
  ∀ np ∈ ep.queryParams, np.2.required = false

theorem foldl_proj_const {α β γ : Type} (proj : α → γ) (step : α → β → α)
    (hstep : ∀ a b, proj (step a b) = proj a) :
    ∀ (l : List β) (a : α), proj (l.foldl step a) = proj a := by
  intro l
  induction l with
  | nil => intro a; rfl
  | cons x xs ih => intro a; rw [List.foldl_cons, ih, hstep]

theorem processPathParams_queryParams (ep : EndpointData)
    (ps : List (String × String)) :
    (processPathParams ep ps).queryParams = ep.queryParams := by
  unfold processPathParams
  refine foldl_proj_const _ _ ?_ ps ep
  intro a b
  rfl

theorem processHeaderParams_queryParams (ep : EndpointData)
    (hs : List (String × String)) :
    (processHeaderParams ep hs).queryParams = ep.queryParams := by
  unfold processHeaderParams
  refine foldl_proj_const _ _ ?_ hs ep
  intro a b
  split <;> rfl

theorem processRequestBody_queryParams (ep : EndpointData) (body : Option Val)
    (ct : String) : (processRequestBody ep body ct).queryParams = ep.queryParams := by
  unfold processRequestBody
  split <;> rfl

theorem processResponse_queryParams (ep : EndpointData) (status : Int)
    (rb : Option Val) (ct : String) (rh : List (String × String)) :
    (processResponse ep status rb ct rh).queryParams = ep.queryParams := by
  unfold processResponse
  split <;> rfl

theorem qp_of_queryParams_eq {ep1 ep2 : EndpointData}
    (he : ep2.queryParams = ep1.queryParams) (h : qpAllOptional ep1) :
    qpAllOptional ep2 := by
  intro np hm
  exact h np (he ▸ hm)

theorem qp_processQueryParams (q : List (String × Val)) :
    ∀ (ep : EndpointData), qpAllOptional ep → qpAllOptional (processQueryParams ep q) := by
  induction q with
  | nil => intro ep h; exact h
  | cons nv rest ih =>
      obtain ⟨name, value⟩ := nv
      intro ep h
      rw [processQueryParams]
      apply ih
      intro np hm
      rcases mem_assocSet _ _ _ _ hm with h1 | h1
      · rw [h1]
        simp only [addValue_required]
        split
        · next p0 heq => exact h _ (assocFind_mem _ _ _ heq)
        · rfl
      · exact h np h1

theorem qp_updateQueryOptionality (ep : EndpointData) (q : List (String × Val))
    (h : qpAllOptional ep) : qpAllOptional (updateQueryOptionality ep q) := by
  intro np hm
  simp only [updateQueryOptionality] at hm
  rcases List.mem_map.mp hm with ⟨np0, hnp0, heq⟩
  by_cases hc : (assocFind q np0.1).isNone = true
  · rw [if_pos hc] at heq
    rw [← heq]
  · rw [if_neg hc] at heq
    rw [← heq]
    exact h np0 hnp0

/-- Query-parameter optionality is preserved by one `AddRecord`. -/
theorem addRecord_qpAllOptional (c : Clusterer) (r : RecordIn)
    (h : ∀ ke ∈ c.endpoints, qpAllOptional ke.2) :
    ∀ ke ∈ (addRecord c r).endpoints, qpAllOptional ke.2 := by
  intro ke hke
  unfold addRecord at hke
  simp only [] at hke
  rcases mem_assocSet _ _ _ _ hke with h1 | h1
  · rw [h1]
    apply qp_of_queryParams_eq (processResponse_queryParams _ _ _ _ _)
    apply qp_of_queryParams_eq (processRequestBody_queryParams _ _ _)
    apply qp_of_queryParams_eq (processHeaderParams_queryParams _ _)
    apply qp_updateQueryOptionality
    apply qp_processQueryParams
    apply qp_of_queryParams_eq (processPathParams_queryParams _ _)
    split
    · next e heq => exact h _ (assocFind_mem _ _ _ heq)
    · intro np hm; simp [newEndpointData] at hm
  · exact h ke h1

/-- C5 amended: after the clusterer processes any record sequence, every
query parameter of every endpoint has `Required = false` — the code
creates query parameters as optional and only ever lowers the flag, so no
query key, not even one present on every record, ends up required. -/
theorem c5_amended_query_params_never_required (rs : List RecordIn) :
    ((processRecords rs).endpoints.all fun ke =>
      ke.2.queryParams.all fun np => np.2.required == false) = true := by
  have main : ∀ (c : Clusterer), (∀ ke ∈ c.endpoints, qpAllOptional ke.2) →
      ∀ ke ∈ (rs.foldl addRecord c).endpoints, qpAllOptional ke.2 := by
    induction rs with
    | nil => intro c hc; exact hc
    | cons r rest ih =>
        intro c hc
        rw [List.foldl_cons]
        exact ih (addRecord c r) (addRecord_qpAllOptional c r hc)
  have base : ∀ ke ∈ (newClusterer).endpoints, qpAllOptional ke.2 := by
    intro ke hm; simp [newClusterer] at hm
  have hall := main newClusterer base
  rw [List.all_eq_true]
  intro ke hke
  rw [List.all_eq_true]
  intro np hnp
  rw [beq_iff_eq]
  exact hall ke hke np hnp

/-- Record used in the C5 evaluation: one GET /users observation whose
query carries limit=10. -/
def c5rec : RecordIn :=
  { method := "GET", path := "/users", pathTemplate := "", pathParams := [],
    query := [("limit", .vstr "10")], headers := [], requestBody := none,
    requestContentType := "", status := 200, responseBody := none,
    responseContentType := "", responseHeaders := [], host := "", scheme := "" }

/-- C5 counterexample: the query key limit appears in every (the single)
observation of GET /users, yet its `Required` flag is false after
processing — the claim would have it required. -/
theorem c5_query_key_in_every_record_not_required :
    ((assocFind (processRecords [c5rec]).endpoints "GET /users").bind
      (fun ep => assocFind ep.queryParams "limit")).map (fun p => p.required) =
    some false := by decide

/- ---------- C1 machinery ---------- -/

theorem assocFind_assocSet_self {κ α : Type} [DecidableEq κ] (l : List (κ × α))
    (k : κ) (v : α) : assocFind (assocSet l k v) k = some v := by
  induction l with
  | nil => simp [assocSet, assocFind]
  | cons hd t ih =>
      obtain ⟨k3, v3⟩ := hd
      simp only [assocSet]
      by_cases h3 : k3 = k
      · rw [if_pos h3]
        simp [assocFind, h3]
      · rw [if_neg h3]
        simp only [assocFind]
        rw [if_neg h3, ih]

theorem assocFind_assocSet_ne {κ α : Type} [DecidableEq κ] (l : List (κ × α))
    (k k2 : κ) (v : α) (h : k2 ≠ k) :
    assocFind (assocSet l k v) k2 = assocFind l k2 := by
  induction l with
  | nil =>
      simp only [assocSet, assocFind]
      rw [if_neg (fun he => h he.symm)]
  | cons hd t ih =>
      obtain ⟨k3, v3⟩ := hd
      simp only [assocSet]
      by_cases h3 : k3 = k
      · rw [if_pos h3]
        simp only [assocFind]
        rw [if_neg (fun he : k3 = k2 => h (he ▸ h3))]
        rw [if_neg (fun he : k3 = k2 => h (he ▸ h3))]
      · rw [if_neg h3]
        simp only [assocFind]
        by_cases h2 : k3 = k2
        · rw [if_pos h2, if_pos h2]
        · rw [if_neg h2, if_neg h2, ih]

theorem assocFind_eq_none_of_not_mem {κ α : Type} [DecidableEq κ]
    (l : List (κ × α)) (k : κ) (h : k ∉ l.map Prod.fst) : assocFind l k = none := by
  induction l with
  | nil => rfl
  | cons hd t ih =>
      obtain ⟨k2, v2⟩ := hd
      simp only [List.map_cons, List.mem_cons] at h
      push_neg at h
      simp only [assocFind]
      rw [if_neg (fun he => h.1 he.symm), ih h.2]

theorem optFold_lookup (N : Nat) (entries : List (String × Nat)) :
    ∀ (acc : List (String × Bool)) (p : String),
      (entries.map Prod.fst).Nodup →
      boolLookup
        (entries.foldl
          (fun acc2 pc => if pc.2 < N then assocSet acc2 pc.1 true else acc2) acc) p =
      (match assocFind entries p with
       | some k => if k < N then true else boolLookup acc p
       | none => boolLookup acc p) := by
  induction entries with
  | nil => intro acc p _; rfl
  | cons e rest ih =>
      obtain ⟨q, k0⟩ := e
      intro acc p hnd
      simp only [List.map_cons, List.nodup_cons] at hnd
      rw [List.foldl_cons, ih _ p hnd.2]
      by_cases hp : q = p
      · subst hp
        have hrest : assocFind rest q = none :=
          assocFind_eq_none_of_not_mem _ _ hnd.1
        rw [hrest]
        have hfind : assocFind ((q, k0) :: rest) q = some k0 := by
          simp [assocFind]
        rw [hfind]
        by_cases hk : k0 < N
        · simp [hk, boolLookup, assocFind_assocSet_self]
        · simp [hk]
      · have hfind : assocFind ((q, k0) :: rest) p = assocFind rest p := by
          simp only [assocFind]
          rw [if_neg hp]
        rw [hfind]
        have hacc : boolLookup (if k0 < N then assocSet acc q true else acc) p =
            boolLookup acc p := by
          split
          · simp only [boolLookup]
            rw [assocFind_assocSet_ne _ _ _ _ (fun he => hp he.symm)]
          · rfl
        cases assocFind rest p <;> simp only [hacc]

theorem finalizeOptional_boolLookup (s : SchemaStore) (hopt : s.optional = [])
    (hnd : (s.seenCount.map Prod.fst).Nodup) (p : String) :
    boolLookup s.finalizeOptional.optional p =
      (match assocFind s.seenCount p with
       | some k => decide (k < s.totalCount)
       | none => false) := by
  show boolLookup
      (s.seenCount.foldl
        (fun acc pc => if pc.2 < s.totalCount then assocSet acc pc.1 true else acc)
        s.optional) p = _
  rw [hopt, optFold_lookup s.totalCount s.seenCount [] p hnd]
  cases assocFind s.seenCount p with
  | none => rfl
  | some k =>
      by_cases hk : k < s.totalCount
      · simp [hk]
      · simp [hk, boolLookup, assocFind]

/-- Property name chosen for a trie child key by `convertToSchemaNode`. -/
def propNameOf (key : String) : String :=
  if isArrayPath key then stripArraySuffix key else key

theorem mem_insertSorted (x y : String) (l : List String) :
    y ∈ insertSorted x l ↔ y = x ∨ y ∈ l := by
  induction l with
  | nil => simp [insertSorted]
  | cons h t ih =>
      simp only [insertSorted]
      split
      · simp
      · simp only [List.mem_cons, ih]
        tauto

theorem mem_sortStrings (q : String) (l : List String) :
    q ∈ sortStrings l ↔ q ∈ l := by
  induction l with
  | nil => simp [sortStrings]
  | cons h t ih => simp [sortStrings, mem_insertSorted, ih]

theorem mem_convertChildren_snd (store : SchemaStore)
    (cs : List (String × TreeNode)) (q : String) :
    q ∈ (convertChildren store cs).2 ↔
      ∃ kc, kc ∈ cs ∧ propNameOf kc.1 = q ∧ kc.2.fullPath ≠ "" ∧
        boolLookup store.optional kc.2.fullPath = false := by
  induction cs with
  | nil =>
      rw [convertChildren.eq_def]
      simp
  | cons e rest ih =>
      obtain ⟨key, child⟩ := e
      rw [convertChildren.eq_def]
      dsimp only []
      rw [List.mem_append, ih]
      have hfst : (convertChildProp store key child).1 = propNameOf key := by
        rw [convertChildProp.eq_def]
        unfold propNameOf
        (repeat' split) <;> rfl
      constructor
      · intro hq
        rcases hq with hq | hq
        · split at hq
          · next hcond =>
              simp only [List.mem_singleton] at hq
              rw [hq, hfst]
              refine ⟨(key, child), List.mem_cons_self _ _, rfl, ?_, ?_⟩
              · intro he
                rw [he] at hcond
                simp at hcond
              · rw [Bool.and_eq_true] at hcond
                simpa using hcond.2
          · simp at hq
        · obtain ⟨kc, hkc, h1, h2, h3⟩ := hq
          exact ⟨kc, List.mem_cons_of_mem _ hkc, h1, h2, h3⟩
      · intro hq
        obtain ⟨kc, hkc, h1, h2, h3⟩ := hq
        rcases List.mem_cons.mp hkc with he | he
        · left
          subst he
          dsimp only [] at h1 h2 h3
          rw [if_pos]
          · simp only [List.mem_singleton]
            rw [hfst]
            exact h1.symm
          · rw [Bool.and_eq_true]
            exact ⟨by simpa using h2, by simpa using h3⟩
        · right
          exact ⟨kc, he, h1, h2, h3⟩

theorem convert_required_eq (store : SchemaStore) (node : TreeNode) (isRoot : Bool)
    (hA : ¬(node.isLeaf = true ∧ node.children = []))
    (hB : ¬(isRoot = true ∧ ∃ k2 c2, node.children = [(k2, c2)] ∧ isArrayPath k2 = true)) :
    (convertToSchemaNode store node isRoot).required =
      sortStrings ((convertChildren store node.children).2) := by
  obtain ⟨children, fullPath, leaf⟩ := node
  simp only [TreeNode.isLeaf, TreeNode.children] at hA hB ⊢
  rw [convertToSchemaNode.eq_def]
  dsimp only []
  rw [if_neg]
  · split
    · next key child =>
        rw [if_neg]
        · simp [SchemaNode.required]
        · intro hcond
          rw [Bool.and_eq_true] at hcond
          exact hB ⟨hcond.1, key, child, rfl, hcond.2⟩
    · simp [SchemaNode.required]
  · intro hcond
    rw [Bool.and_eq_true] at hcond
    exact hA ⟨hcond.1, List.isEmpty_iff.mp hcond.2⟩

/-- C1: for a schema store with untouched optional markings and a Go-map
seen-count (distinct keys), after `FinalizeOptional` a path with presence
count k is marked optional iff k < totalCount; consequently, in the tree
built by `convertToSchemaNode`, an object property whose tracked full
path was present in all observations lands in its parent required list,
and one present in fewer does not (provided no other sibling shares its
property name with a different path). -/
theorem c1_required_iff_presence (s : SchemaStore) (hopt : s.optional = [])
    (hnd : (s.seenCount.map Prod.fst).Nodup) :
    (∀ p k, assocFind s.seenCount p = some k →
        (boolLookup s.finalizeOptional.optional p = true ↔ k < s.totalCount)) ∧
    (∀ (node : TreeNode) (isRoot : Bool) (key : String) (child : TreeNode),
        (key, child) ∈ node.children →
        ¬(node.isLeaf = true ∧ node.children = []) →
        ¬(isRoot = true ∧ ∃ k2 c2, node.children = [(k2, c2)] ∧ isArrayPath k2 = true) →
        child.fullPath ≠ "" →
        ∀ k, assocFind s.seenCount child.fullPath = some k →
          ((s.totalCount ≤ k →
              propNameOf key ∈
                (convertToSchemaNode s.finalizeOptional node isRoot).required) ∧
           (k < s.totalCount →
              (∀ kc, kc ∈ node.children → propNameOf kc.1 = propNameOf key →
                kc.2.fullPath = child.fullPath) →
              propNameOf key ∉
                (convertToSchemaNode s.finalizeOptional node isRoot).required))) := by
  have hfin : ∀ p, boolLookup s.finalizeOptional.optional p =
      (match assocFind s.seenCount p with
       | some k => decide (k < s.totalCount)
       | none => false) := finalizeOptional_boolLookup s hopt hnd
  constructor
  · intro p k hp
    rw [hfin p, hp]
    simp
  · intro node isRoot key child hmem hA hB hfp k hk
    have hreq := convert_required_eq s.finalizeOptional node isRoot hA hB
    constructor
    · intro hge
      rw [hreq, mem_sortStrings, mem_convertChildren_snd]
      refine ⟨(key, child), hmem, rfl, hfp, ?_⟩
      rw [hfin child.fullPath, hk]
      simp
      omega
    · intro hlt huniq hcontra
      rw [hreq, mem_sortStrings, mem_convertChildren_snd] at hcontra
      obtain ⟨kc, hkc, hname, hfp2, hopt2⟩ := hcontra
      rw [huniq kc hkc hname] at hopt2
      rw [hfin child.fullPath, hk] at hopt2
      simp at hopt2
      omega

/-- Store used in the C1 evaluation: two body observations, path a seen
in both, path b in one. -/
def c1store : SchemaStore :=
  { examples := [("a", [.vstr "x"]), ("b", [.vstr "y"])],
    types := [("a", "string"), ("b", "string")], optional := [], nullable := [],
    formats := [], seenCount := [("a", 2), ("b", 1)], totalCount := 2,
    maxExamples := 5 }

/-- Trie over paths a and b as `BuildSchemaTree` inserts them. -/
def c1tree : TreeNode :=
  TreeNode.mk [("a", TreeNode.mk [] "a" true), ("b", TreeNode.mk [] "b" true)]
    "" false

theorem c1_required_iff_presence_witness :
    (c1store.optional = [] ∧ (c1store.seenCount.map Prod.fst).Nodup) ∧
    (boolLookup c1store.finalizeOptional.optional "b" = true ↔ 1 < c1store.totalCount) ∧
    propNameOf "a" ∈ (convertToSchemaNode c1store.finalizeOptional c1tree false).required ∧
    propNameOf "b" ∉ (convertToSchemaNode c1store.finalizeOptional c1tree false).required := by
  have h := c1_required_iff_presence c1store rfl (by decide)
  refine ⟨⟨rfl, by decide⟩, h.1 "b" 1 (by decide), ?_, ?_⟩
  · have hmem : ("a", TreeNode.mk [] "a" true) ∈ c1tree.children := by
      simp [c1tree, TreeNode.children]
    exact (h.2 c1tree false "a" (TreeNode.mk [] "a" true) hmem
        (by simp [c1tree, TreeNode.isLeaf])
        (by simp)
        (by decide) 2 (by decide)).1 (by decide)
  · have hmem : ("b", TreeNode.mk [] "b" true) ∈ c1tree.children := by
      simp [c1tree, TreeNode.children]
    refine (h.2 c1tree false "b" (TreeNode.mk [] "b" true) hmem
        (by simp [c1tree, TreeNode.isLeaf])
        (by simp)
        (by decide) 1 (by decide)).2 (by decide) ?_
    intro kc hkc hname
    simp only [c1tree, TreeNode.children, List.mem_cons, List.not_mem_nil,
      or_false] at hkc
    rcases hkc with he | he
    · rw [he] at hname
      exact absurd hname (by decide)
    · rw [he]

/- ---------- C7 machinery ---------- -/

/- Example values with the example field cleared at every level; the
claim compares merged nodes "up to example dedup". -/
mutual

def dropExamples : SchemaNode → SchemaNode
  | .mk t f props items req nul _ en =>
      SchemaNode.mk t f (dropExamplesProps props)
        (match items with
         | some i => some (dropExamples i)
         | none => none)
        req nul [] en

def dropExamplesProps : List (String × SchemaNode) → List (String × SchemaNode)
  | [] => []
  | (k, v) :: rest => (k, dropExamples v) :: dropExamplesProps rest

end

/-- Ascending chain check under Go string order. -/
def sortedStrings : List String → Bool
  | [] => true
  | [_] => true
  | x :: y :: rest => strLe x y && sortedStrings (y :: rest)

/-- Distinct keys (Go map invariant) for an association list. -/
def keysNodupB {α : Type} : List (String × α) → Bool
  | [] => true
  | (k, _) :: rest => !((rest.map Prod.fst).contains k) && keysNodupB rest

/- Well-formedness of a schema node as the tree builder and the merge
itself produce them: required and enum sorted, property keys distinct,
properties and required empty unless the type is "object", items absent
unless the type is "array", recursively. -/
mutual

def wfNode : SchemaNode → Bool
  | .mk t _ props items req _ _ en =>
      sortedStrings req && sortedStrings en && keysNodupB props &&
      (if t = TypeObject then true else props.isEmpty && req.isEmpty) &&
      (if t = TypeArray then true else items.isNone) &&
      wfProps props &&
      (match items with
       | some i => wfNode i
       | none => true)

def wfProps : List (String × SchemaNode) → Bool
  | [] => true
  | (_, v) :: rest => wfNode v && wfProps rest

end

/-- Unsorted-required node used in the C7 evaluation. -/
def c7unsorted : SchemaNode :=
  SchemaNode.mk "object" ""
    [("b", SchemaNode.mk "string" "" [] none [] false [] []),
     ("a", SchemaNode.mk "string" "" [] none [] false [] [])]
    none ["b", "a"] false [] []

/-- C7 counterexample: formats are not commutative (first non-empty
wins: email vs uuid swap), and merge(x,x) differs from x even ignoring
examples when the required list is unsorted (the merge re-sorts it). -/
theorem c7_merge_counterexample :
    (mergeCore (SchemaNode.mk "string" "email" [] none [] false [] [])
        (SchemaNode.mk "string" "uuid" [] none [] false [] [])).format = "email" ∧
    (mergeCore (SchemaNode.mk "string" "uuid" [] none [] false [] [])
        (SchemaNode.mk "string" "email" [] none [] false [] [])).format = "uuid" ∧
    (mergeCore c7unsorted c7unsorted).required = ["a", "b"] ∧
    c7unsorted.required = ["b", "a"] := by
  refine ⟨?_, ?_, ?_, rfl⟩
  · rw [mergeCore.eq_def]; rfl
  · rw [mergeCore.eq_def]; rfl
  · rw [mergeCore.eq_def]; rfl

theorem mergeTypes_self (t : String) : mergeTypes t t = t := by
  unfold mergeTypes
  by_cases h : t = ""
  · rw [if_pos h]
  · rw [if_neg h, if_neg h, if_pos rfl]

theorem mergeTypes_comm (t1 t2 : String) : mergeTypes t1 t2 = mergeTypes t2 t1 := by
  unfold mergeTypes
  by_cases h1 : t1 = ""
  · subst h1
    by_cases h2 : t2 = "" <;> simp [h2]
  · by_cases h2 : t2 = ""
    · subst h2; simp [h1]
    · by_cases h3 : t1 = t2
      · subst h3; simp
      · have h3b : ¬t2 = t1 := fun he => h3 he.symm
        rw [if_neg h1, if_neg h2, if_neg h3, if_neg h2, if_neg h1, if_neg h3b]
        by_cases h4 : (t1 = TypeInteger ∧ t2 = TypeNumber) ∨
            (t1 = TypeNumber ∧ t2 = TypeInteger)
        · rw [if_pos h4,
            if_pos (h4.elim (fun hp => Or.inr ⟨hp.2, hp.1⟩) (fun hp => Or.inl ⟨hp.2, hp.1⟩))]
        · rw [if_neg h4,
            if_neg (fun hc => h4 (hc.elim (fun hp => Or.inr ⟨hp.2, hp.1⟩)
              (fun hp => Or.inl ⟨hp.2, hp.1⟩)))]

theorem mergeCore_type (a b : SchemaNode) :
    (mergeCore a b).type =
      if a.type = TypeObject ∨ b.type = TypeObject then TypeObject
      else if a.type = TypeArray ∨ b.type = TypeArray then TypeArray
      else mergeTypes a.type b.type := by
  rw [mergeCore.eq_def]
  rfl

theorem mergeCore_nullable (a b : SchemaNode) :
    (mergeCore a b).nullable = (a.nullable || b.nullable) := by
  rw [mergeCore.eq_def]
  rfl

theorem mergeCore_format (a b : SchemaNode) :
    (mergeCore a b).format =
      if a.format ≠ "" then a.format
      else if b.format ≠ "" then b.format
      else "" := by
  rw [mergeCore.eq_def]
  rfl

theorem contains_cons_eq (x a : String) (l : List String) :
    (x :: l).contains a = ((a == x) || l.contains a) := rfl

theorem contains_iff_mem (l : List String) (a : String) :
    l.contains a = true ↔ a ∈ l := by
  induction l with
  | nil => simp [List.contains]
  | cons x xs ih =>
      rw [contains_cons_eq]
      simp [ih, beq_iff_eq]

theorem contains_of_mem (l : List String) (a : String) (h : a ∈ l) :
    l.contains a = true := (contains_iff_mem l a).mpr h

theorem keysNodupB_iff {α : Type} (l : List (String × α)) :
    keysNodupB l = true ↔ (l.map Prod.fst).Nodup := by
  induction l with
  | nil => simp [keysNodupB]
  | cons hd rest ih =>
      obtain ⟨k, v⟩ := hd
      simp only [keysNodupB, Bool.and_eq_true, Bool.not_eq_true', List.map_cons,
        List.nodup_cons, ih]
      constructor
      · rintro ⟨h1, h2⟩
        refine ⟨fun hm => ?_, h2⟩
        rw [contains_of_mem _ _ hm] at h1
        cases h1
      · rintro ⟨h1, h2⟩
        refine ⟨?_, h2⟩
        cases hc : (rest.map Prod.fst).contains k
        · rfl
        · exact absurd ((contains_iff_mem _ _).mp hc) h1

theorem sortedStrings_tail (x : String) (xs : List String)
    (h : sortedStrings (x :: xs) = true) : sortedStrings xs = true := by
  cases xs with
  | nil => rfl
  | cons y ys =>
      simp only [sortedStrings, Bool.and_eq_true] at h
      exact h.2

theorem sortStrings_sorted_id (l : List String) (h : sortedStrings l = true) :
    sortStrings l = l := by
  induction l with
  | nil => rfl
  | cons x xs ih =>
      rw [sortStrings, ih (sortedStrings_tail x xs h)]
      cases xs with
      | nil => rfl
      | cons y ys =>
          simp only [sortedStrings, Bool.and_eq_true] at h
          rw [insertSorted, if_pos h.1]

theorem filter_contains_self (l : List String) :
    l.filter (fun r => l.contains r) = l := by
  apply List.filter_eq_self.mpr
  intro a ha
  exact contains_of_mem l a ha

theorem dedupSeen_all_seen (seen : List String) :
    ∀ l, (∀ k ∈ l, seen.contains k = true) → dedupSeen seen l = [] := by
  intro l
  induction l with
  | nil => intro; rfl
  | cons x xs ih =>
      intro h
      rw [dedupSeen, if_pos (h x (List.mem_cons_self _ _)), ih]
      intro k hk
      exact h k (List.mem_cons_of_mem _ hk)

theorem dedupSeen_nodup_append (ks : List String) :
    ∀ (seen rest : List String), ks.Nodup →
      (∀ k ∈ ks, seen.contains k = false) →
      (∀ k ∈ rest, k ∈ ks ∨ seen.contains k = true) →
      dedupSeen seen (ks ++ rest) = ks := by
  induction ks with
  | nil =>
      intro seen rest _ _ hrest
      rw [List.nil_append]
      apply dedupSeen_all_seen
      intro k hk
      rcases hrest k hk with h | h
      · cases h
      · exact h
  | cons x xs ih =>
      intro seen rest hnd hseen hrest
      rw [List.cons_append, dedupSeen,
        if_neg (by rw [hseen x (List.mem_cons_self _ _)]; exact Bool.false_ne_true)]
      congr 1
      rw [List.nodup_cons] at hnd
      apply ih (x :: seen) rest hnd.2
      · intro k hk
        rw [contains_cons_eq]
        have h1 : (k == x) = false := by
          cases hbe : k == x
          · rfl
          · exact absurd (beq_iff_eq.mp hbe ▸ hk) hnd.1
        rw [h1, hseen k (List.mem_cons_of_mem _ hk)]
        rfl
      · intro k hk
        rcases hrest k hk with h | h
        · rcases List.mem_cons.mp h with he | he
          · right
            rw [contains_cons_eq, he]
            simp
          · left; exact he
        · right
          rw [contains_cons_eq, h]
          simp

theorem mergeSchemas_some_some (a b : SchemaNode) :
    mergeSchemas (some a) (some b) = some (mergeCore a b) := by
  rw [mergeSchemas.eq_def]

theorem filterMap_congr_mem {α β : Type} (l : List α) (f g : α → Option β)
    (h : ∀ a ∈ l, f a = g a) : l.filterMap f = l.filterMap g := by
  induction l with
  | nil => rfl
  | cons x xs ih =>
      rw [List.filterMap_cons, List.filterMap_cons,
        h x (List.mem_cons_self _ _), ih (fun a ha => h a (List.mem_cons_of_mem _ ha))]

theorem keys_filterMap_self (props : List (String × SchemaNode))
    (hnd : (props.map Prod.fst).Nodup) :
    (props.map Prod.fst).filterMap
      (fun n => (mergeSchemas (assocFind props n) (assocFind props n)).map
        (fun v => (n, v))) =
    props.map (fun kv => (kv.1, mergeCore kv.2 kv.2)) := by
  induction props with
  | nil => rfl
  | cons hd ps ih =>
      obtain ⟨k, v⟩ := hd
      rw [List.map_cons, List.map_cons, List.filterMap_cons]
      rw [List.map_cons, List.nodup_cons] at hnd
      have hself : assocFind ((k, v) :: ps) k = some v := by
        simp [assocFind]
      rw [hself, mergeSchemas_some_some]
      dsimp only [Option.map_some']
      congr 1
      rw [filterMap_congr_mem (ps.map Prod.fst) _
        (fun n => (mergeSchemas (assocFind ps n) (assocFind ps n)).map (fun v2 => (n, v2)))]
      · exact ih hnd.2
      · intro n hm
        have hne : ¬k = n := fun he => hnd.1 (he ▸ hm)
        have : assocFind ((k, v) :: ps) n = assocFind ps n := by
          simp only [assocFind]
          rw [if_neg hne]
        rw [this]

theorem mergeSchemas_none_left (b : Option SchemaNode) :
    mergeSchemas none b = b := by
  rw [mergeSchemas.eq_def]

theorem dropExamples_mk (t f : String) (props : List (String × SchemaNode))
    (items : Option SchemaNode) (req : List String) (nul : Bool)
    (ex : List Val) (en : List String) :
    dropExamples (SchemaNode.mk t f props items req nul ex en) =
      SchemaNode.mk t f (dropExamplesProps props)
        (match items with
         | some i => some (dropExamples i)
         | none => none)
        req nul [] en := by
  rw [dropExamples.eq_def]

theorem dropExProps_merge_self (n : Nat)
    (ih : ∀ x : SchemaNode, sizeOf x ≤ n → wfNode x = true →
       dropExamples (mergeCore x x) = dropExamples x) :
    ∀ props : List (String × SchemaNode), sizeOf props ≤ n → wfProps props = true →
      dropExamplesProps (props.map (fun kv => (kv.1, mergeCore kv.2 kv.2))) =
        dropExamplesProps props := by
  intro props
  induction props with
  | nil => intro _ _; rfl
  | cons hd ps ihp =>
      obtain ⟨k, v⟩ := hd
      intro hsz hwfp
      rw [wfProps, Bool.and_eq_true] at hwfp
      have hszv : sizeOf v ≤ n := by
        simp only [List.cons.sizeOf_spec, Prod.mk.sizeOf_spec] at hsz
        omega
      have hszps : sizeOf ps ≤ n := by
        simp only [List.cons.sizeOf_spec, Prod.mk.sizeOf_spec] at hsz
        omega
      simp only [List.map_cons, dropExamplesProps]
      rw [ih v hszv hwfp.1, ihp hszps hwfp.2]

/-- Merging a well-formed node with itself changes nothing outside the
example lists. -/
theorem dropEx_mergeCore_self :
    ∀ (n : Nat) (x : SchemaNode), sizeOf x ≤ n → wfNode x = true →
      dropExamples (mergeCore x x) = dropExamples x := by
  intro n
  induction n with
  | zero =>
      intro x hx _
      obtain ⟨t, f, props, items, req, nul, ex, en⟩ := x
      simp at hx
  | succ n ih =>
      intro x hx hwf
      obtain ⟨t, f, props, items, req, nul, ex, en⟩ := x
      rw [wfNode.eq_def] at hwf
      simp only [Bool.and_eq_true] at hwf
      obtain ⟨⟨⟨⟨⟨⟨hreqS, henS⟩, hknd⟩, hstruct⟩, hitems⟩, hwfp⟩, hwfi⟩ := hwf
      have hszp : sizeOf props ≤ n := by
        simp only [SchemaNode.mk.sizeOf_spec] at hx
        omega
      have hmerge : mergeCore (SchemaNode.mk t f props items req nul ex en)
          (SchemaNode.mk t f props items req nul ex en) =
        SchemaNode.mk
          (if t = TypeObject ∨ t = TypeObject then TypeObject
           else if t = TypeArray ∨ t = TypeArray then TypeArray else mergeTypes t t)
          (if f ≠ "" then f else if f ≠ "" then f else "")
          (if t = TypeObject ∨ t = TypeObject then
            (dedupKeepFirst (props.map Prod.fst ++ props.map Prod.fst)).filterMap
              (fun n2 => (mergeSchemas (assocFind props n2) (assocFind props n2)).map
                (fun v => (n2, v)))
           else [])
          (if t = TypeArray ∨ t = TypeArray then mergeSchemas items items else none)
          (if t = TypeObject ∨ t = TypeObject then
            sortStrings (req.filter (fun r => req.contains r)) else [])
          (nul || nul)
          (mergeExamples ex ex 5)
          (if !en.isEmpty && !en.isEmpty then
            sortStrings (en.filter (fun e => en.contains e)) else []) := by
        rw [mergeCore.eq_def]
        rfl
      rw [hmerge, dropExamples_mk, dropExamples_mk]
      simp only [SchemaNode.mk.injEq]
      refine ⟨?_, ?_, ?_, ?_, ?_, Bool.or_self nul, trivial, ?_⟩
      · by_cases ho : t = TypeObject
        · rw [if_pos (Or.inl ho), ho]
        · rw [if_neg (fun hc => ho (hc.elim id id))]
          by_cases ha : t = TypeArray
          · rw [if_pos (Or.inl ha), ha]
          · rw [if_neg (fun hc => ha (hc.elim id id)), mergeTypes_self]
      · by_cases hf : f = ""
        · rw [if_neg (fun hc => hc hf), if_neg (fun hc => hc hf), hf]
        · rw [if_pos hf]
      · by_cases ho : t = TypeObject
        · rw [if_pos (Or.inl ho)]
          have hnd : (props.map Prod.fst).Nodup := (keysNodupB_iff props).mp hknd
          have hded : dedupKeepFirst (props.map Prod.fst ++ props.map Prod.fst) =
              props.map Prod.fst :=
            dedupSeen_nodup_append (props.map Prod.fst) [] (props.map Prod.fst)
              hnd (fun _ _ => rfl) (fun _ hk => Or.inl hk)
          rw [hded, keys_filterMap_self props hnd]
          exact dropExProps_merge_self n ih props hszp hwfp
        · rw [if_neg (fun hc => ho (hc.elim id id))]
          rw [if_neg ho] at hstruct
          simp only [Bool.and_eq_true, List.isEmpty_iff] at hstruct
          rw [hstruct.1]
      · by_cases ha : t = TypeArray
        · rw [if_pos (Or.inl ha)]
          cases items with
          | none => rw [mergeSchemas_none_left]
          | some i =>
              rw [mergeSchemas_some_some]
              have hszi : sizeOf i ≤ n := by
                simp only [SchemaNode.mk.sizeOf_spec, Option.some.sizeOf_spec] at hx
                omega
              have hi : dropExamples (mergeCore i i) = dropExamples i :=
                ih i hszi hwfi
              simp [hi]
        · rw [if_neg (fun hc => ha (hc.elim id id))]
          rw [if_neg ha] at hitems
          rw [Option.isNone_iff_eq_none.mp hitems]
      · by_cases ho : t = TypeObject
        · rw [if_pos (Or.inl ho), filter_contains_self, sortStrings_sorted_id req hreqS]
        · rw [if_neg (fun hc => ho (hc.elim id id))]
          rw [if_neg ho] at hstruct
          simp only [Bool.and_eq_true, List.isEmpty_iff] at hstruct
          rw [hstruct.2]
      · cases en with
        | nil => rfl
        | cons e0 es =>
            rw [if_pos (by simp), filter_contains_self,
              sortStrings_sorted_id _ henS]

/-- Well-formed sample node used in the C7 witness. -/
def c7wf : SchemaNode :=
  SchemaNode.mk "object" ""
    [("a", SchemaNode.mk "string" "" [] none [] false [] [])]
    none ["a"] false [] []

/-- C7 (amended): Go schema merge is idempotent up to example
deduplication on well-formed nodes (sorted required and enum lists,
distinct property keys, object and array structural invariants):
dropping the example lists, MergeSchemas(x, x) equals x. The merge is
commutative on the resulting Type and on Nullable unconditionally, but
on Format only when the two formats do not conflict (one side empty or
both equal); the accompanying counterexample shows the literal claim
fails, since the format takes whichever side is non-empty first and an
unsorted required list is re-sorted by merging a node with itself. -/
theorem c7_merge_laws :
    (∀ x : SchemaNode, wfNode x = true →
        dropExamples (mergeCore x x) = dropExamples x) ∧
    (∀ a b : SchemaNode, (mergeCore a b).type = (mergeCore b a).type) ∧
    (∀ a b : SchemaNode, (mergeCore a b).nullable = (mergeCore b a).nullable) ∧
    (∀ a b : SchemaNode,
        (a.format = "" ∨ b.format = "" ∨ a.format = b.format) →
        (mergeCore a b).format = (mergeCore b a).format) := by
  refine ⟨?_, ?_, ?_, ?_⟩
  · intro x hwf
    exact dropEx_mergeCore_self (sizeOf x) x le_rfl hwf
  · intro a b
    rw [mergeCore_type, mergeCore_type]
    by_cases ho : a.type = TypeObject ∨ b.type = TypeObject
    · rw [if_pos ho, if_pos (Or.symm ho)]
    · have ho2 : ¬(b.type = TypeObject ∨ a.type = TypeObject) :=
        fun h => ho (Or.symm h)
      rw [if_neg ho, if_neg ho2]
      by_cases ha : a.type = TypeArray ∨ b.type = TypeArray
      · rw [if_pos ha, if_pos (Or.symm ha)]
      · have ha2 : ¬(b.type = TypeArray ∨ a.type = TypeArray) :=
          fun h => ha (Or.symm h)
        rw [if_neg ha, if_neg ha2, mergeTypes_comm]
  · intro a b
    rw [mergeCore_nullable, mergeCore_nullable, Bool.or_comm]
  · intro a b h
    rw [mergeCore_format, mergeCore_format]
    rcases h with h | h | h
    · by_cases hb : b.format = "" <;> simp [h, hb]
    · by_cases ha : a.format = "" <;> simp [h, ha]
    · rw [h]

/-- Witness for C7 at concrete nodes. -/
theorem c7_merge_laws_witness :
    wfNode c7wf = true ∧
    dropExamples (mergeCore c7wf c7wf) = dropExamples c7wf ∧
    (mergeCore c7wf c7unsorted).type = (mergeCore c7unsorted c7wf).type ∧
    (mergeCore c7wf c7unsorted).nullable = (mergeCore c7unsorted c7wf).nullable ∧
    (mergeCore c7wf c7unsorted).format = (mergeCore c7unsorted c7wf).format :=
  ⟨by decide, c7_merge_laws.1 c7wf (by decide),
   c7_merge_laws.2.1 c7wf c7unsorted,
   c7_merge_laws.2.2.1 c7wf c7unsorted,
   c7_merge_laws.2.2.2 c7wf c7unsorted (Or.inl rfl)⟩

end T2O
